import Mathlib

/-!
Verification development for the slack-mcp-server repository.

The Go sources are shallowly embedded here:
* `pkg/types/types.go` → the structures `SlackError`, `UserInfo`, `Message`,
  `ParsedURL`, `SearchMatch` and the result envelopes;
* `internal/urlparser/parser.go` → `Parse`, `convertTimestamp` and the helper
  model `goURLParse` of Go's `net/url.Parse` (external standard library);
* `internal/slack/client.go` (the version with the user cache) →
  `GetUserInfo`, `convertUser`, `wrapSlackError`;
* `internal/tools/read_message.go`, `list_channel_messages.go`,
  `search_messages.go` → `handleReadMessage`, `handleListChannelMessages`,
  `handleSearchMessages`.

Strings are handled at the `List Char` level (`String` in this Lean version is
a structure wrapping `List Char`), so every definition is executable and every
concrete case can be settled by `decide` or `rfl`.

Modelling notes, stated once:
* Go's `net/url.Parse` is external standard-library code; `goURLParse` models
  it for the URL shapes exercised here (strings of the shape
  `scheme://host/path?query#fragment` and scheme-less strings).  Percent- and
  plus-decoding of query values is not modelled; all values considered by the
  claims are decoding-free.  `net/url.Parse` failures (control characters,
  malformed escapes) are not modelled: on every such input the embedded parser
  still rejects, through the host-suffix or grammar check, with the same
  `invalid_url` error code that the Go code produces for a parse failure.
* `encoding/json.Marshal` is external; the handlers take the serializer as an
  explicit function argument `encode` (it never fails on these struct types).
* Go maps are modelled as association lists; iteration order of the mention
  set is fixed to first-occurrence order.  No claim depends on that order.
* Port calls made by a handler are recorded in an explicit trace
  (`List PortCall`), in program order, so that statements about "the argument
  passed to the Port" are about the recorded call.
-/

namespace SlackMCP

/-- Error structure from `pkg/types/types.go` (`SlackError`). -/
structure SlackError where
  code : String
  message : String
deriving DecidableEq, Repr

/-- Error code constants from `pkg/types/types.go`. -/
def errCodeInvalidURL : String := "invalid_url"

/-- Error code `message_not_found` from `pkg/types/types.go`. -/
def errCodeMessageNotFound : String := "message_not_found"

/-- Error code `channel_not_found` from `pkg/types/types.go`. -/
def errCodeChannelNotFound : String := "channel_not_found"

/-- Error code `not_in_channel` from `pkg/types/types.go`. -/
def errCodeNotInChannel : String := "not_in_channel"

/-- Error code `rate_limited` from `pkg/types/types.go`. -/
def errCodeRateLimited : String := "rate_limited"

/-- Error code `invalid_token` from `pkg/types/types.go`. -/
def errCodeInvalidToken : String := "invalid_token"

/-- Error code `permission_denied` from `pkg/types/types.go`. -/
def errCodePermissionDenied : String := "permission_denied"

/-- Modelled from the spec: the error taxonomy of §4.5 names a
`UserTokenNotConfigured` kind (`types.ErrCodeUserTokenNotConfigured` is
referenced by the search tests but its declaration is not among the source
files).  Following the naming pattern of the other codes. -/
def errCodeUserTokenNotConfigured : String := "user_token_not_configured"

/-- Constructor `NewSlackError` from `pkg/types/types.go`. -/
def NewSlackError (code message : String) : SlackError := ⟨code, message⟩

/-- Decidable equality for `Except` values, so that concrete runs of the
fallible embedded functions can be settled by `decide`. -/
instance exceptDecidableEq {ε α : Type} [DecidableEq ε] [DecidableEq α] :
    DecidableEq (Except ε α) := fun a b =>
  match a, b with
  | .error x, .error y =>
    if h : x = y then .isTrue (by rw [h]) else .isFalse (by simp [h])
  | .error _, .ok _ => .isFalse (by simp)
  | .ok _, .error _ => .isFalse (by simp)
  | .ok x, .ok y =>
    if h : x = y then .isTrue (by rw [h]) else .isFalse (by simp [h])

/-- Decimal-digit test used by `convertTimestamp` (`c < '0' || c > '9'`
negated). -/
def isDigitChar (c : Char) : Bool :=
  decide ('0' ≤ c) && decide (c ≤ '9')

/-- Character class `[A-Z0-9]` of `slackURLPattern`. -/
def isUpperAlnum (c : Char) : Bool :=
  (decide ('A' ≤ c) && decide (c ≤ 'Z')) || (decide ('0' ≤ c) && decide (c ≤ '9'))

/-- Function `convertTimestamp` from `internal/urlparser/parser.go`, on the
character list of the input string: a 16-digit URL timestamp becomes
`seconds.microseconds` by inserting a dot after the tenth digit; anything
else is an error carrying the Go error message. -/
def convertTimestamp (l : List Char) : Except String (List Char) :=
  if l.length ≠ 16 then
    .error ("invalid timestamp format: expected 16 digits, got " ++ toString l.length)
  else if ¬ (l.all isDigitChar = true) then
    .error "invalid timestamp format: contains non-digit characters"
  else
    .ok (l.take 10 ++ '.' :: l.drop 10)

/-- Exported wrapper `ConvertTimestamp` from `internal/urlparser/parser.go`,
at the `String` level. -/
def ConvertTimestamp (s : String) : Except String String :=
  match convertTimestamp s.data with
  | .error e => .error e
  | .ok l => .ok (String.mk l)

/-- Helper: split a character list at the first occurrence of `c`
(Go's `strings.Cut` on a one-character separator).  Returns the part before
the first `c` and, when `c` occurs, the part after it. -/
def splitFirst (c : Char) : List Char → List Char × Option (List Char)
  | [] => ([], none)
  | a :: as =>
    if a = c then ([], some as)
    else
      let r := splitFirst c as
      (a :: r.1, r.2)

/-- Helper: `strings.HasPrefix` plus removal — strip `p` from the front of
`l` if it is a prefix. -/
def stripPrefixChars : List Char → List Char → Option (List Char)
  | [], l => some l
  | _ :: _, [] => none
  | a :: as, b :: bs => if a = b then stripPrefixChars as bs else none

/-- Helper: `strings.HasSuffix` at the character-list level. -/
def hasSuffixChars (l p : List Char) : Bool :=
  decide (p.length ≤ l.length) && decide (l.drop (l.length - p.length) = p)

/-- Lower-casing of a single ASCII character, as Go's `net/url.Parse`
applies to the scheme. -/
def toLowerChar (c : Char) : Char :=
  if 'A' ≤ c ∧ c ≤ 'Z' then Char.ofNat (c.toNat + 32) else c

/-- Components of a parsed URL as used by `internal/urlparser/parser.go`:
`Scheme`, `Host`, `Path` and `RawQuery` of Go's `url.URL`. -/
structure GoURL where
  scheme : List Char
  host : List Char
  path : List Char
  rawQuery : List Char
deriving DecidableEq, Repr

/-- Model of Go's `net/url.Parse` (external standard library) for the URL
shapes relevant to this repository; see the modelling notes at the top of
this file.  The fragment (everything from the first `#`) is cut off first,
then the query (everything from the first `?`); a `scheme://host/path`
split is attempted on the remainder, and a string without `://` is treated
as a host-less path, which is exactly how the Go parser treats the
rejected inputs of the claims. -/
def goURLParse (s : List Char) : GoURL :=
  let beforeFrag := (splitFirst '#' s).1
  let q := splitFirst '?' beforeFrag
  let rawQuery := q.2.getD []
  match splitFirst ':' q.1 with
  | (before, some rest) =>
    if rest.take 2 = ['/', '/'] then
      let afterSlashes := rest.drop 2
      let h := splitFirst '/' afterSlashes
      let path := match h.2 with
        | some r => '/' :: r
        | none => []
      ⟨before.map toLowerChar, h.1, path, rawQuery⟩
    else
      ⟨before.map toLowerChar, [], rest, rawQuery⟩
  | (_, none) => ⟨[], [], q.1, rawQuery⟩

/-- Host part of `slackURLPattern` (`internal/urlparser/parser.go`):
`[^/]+\.slack\.com` — one or more non-slash characters followed by the
literal `.slack.com`, covering the whole host. -/
def hostMatches (host : List Char) : Bool :=
  decide (10 < host.length) &&
  decide (host.drop (host.length - 10) = (".slack.com").data) &&
  (host.take (host.length - 10)).all (fun c => decide (c ≠ '/'))

/-- Path part of `slackURLPattern`: `/archives/([A-Z0-9]+)/p(\d+)` anchored
at the end.  Returns the channel-id and raw-timestamp capture groups. -/
def pathMatches (path : List Char) : Option (List Char × List Char) :=
  match stripPrefixChars ("/archives/").data path with
  | none => none
  | some rest =>
    match splitFirst '/' rest with
    | (_, none) => none
    | (seg, some r) =>
      if seg ≠ [] ∧ seg.all isUpperAlnum = true then
        match r with
        | 'p' :: ds =>
          if ds ≠ [] ∧ ds.all isDigitChar = true then some (seg, ds) else none
        | _ => none
      else none

/-- Full match of `slackURLPattern` against the rebuilt
`scheme://host/path` base URL: the anchored regex
`^https://[^/]+\.slack\.com/archives/([A-Z0-9]+)/p(\d+)$`. -/
def matchSlackURL (u : GoURL) : Option (List Char × List Char) :=
  if u.scheme = ("https").data ∧ hostMatches u.host = true then
    pathMatches u.path
  else none

/-- Helper: split a character list into the pieces delimited by `c`
(the successive `strings.Cut` steps of Go's `net/url.ParseQuery` loop
produce exactly these pieces in order). -/
def splitAll (c : Char) : List Char → List (List Char)
  | [] => [[]]
  | a :: as =>
    if a = c then [] :: splitAll c as
    else
      match splitAll c as with
      | [] => [[a]]
      | p :: ps => (a :: p) :: ps

/-- Scan of the query pieces as Go's `net/url.ParseQuery` consumes them,
specialised to the first value of one key, which is what `Query().Get(key)`
reads: skip pieces containing `;` and empty pieces, split each piece at the
first `=`, return the value of the first piece whose key part equals
`key`. -/
def queryGetPieces (key : List Char) : List (List Char) → Option (List Char)
  | [] => none
  | p :: ps =>
    if ';' ∈ p then queryGetPieces key ps
    else if p = [] then queryGetPieces key ps
    else
      let kv := splitFirst '=' p
      if kv.1 = key then some (kv.2.getD [])
      else queryGetPieces key ps

/-- The value `Query().Get(key)` that `Parse` reads from the raw query: the
first value recorded for `key`, or the empty string when absent
(`url.Values.Get` returns `""` for a missing key; an empty raw query
produces no pieces, matching the empty-piece skip above). -/
def queryGet (key : List Char) (raw : List Char) : List Char :=
  (queryGetPieces key (splitAll '&' raw)).getD []

/-- Structure `ParsedURL` from `pkg/types/types.go`. -/
structure ParsedURL where
  channelID : String
  timestamp : String
  threadTS : String
  isThread : Bool
deriving DecidableEq, Repr

/-- Function `Parse` from `internal/urlparser/parser.go`: reject the empty
string, parse the URL, require a `.slack.com` host, match the rebuilt base
URL against `slackURLPattern`, convert the 16-digit path timestamp, and read
the optional `thread_ts` query parameter. -/
def Parse (s : String) : Except SlackError ParsedURL :=
  if s.data = [] then
    .error (NewSlackError errCodeInvalidURL "URL cannot be empty")
  else
    let u := goURLParse s.data
    if hasSuffixChars u.host (".slack.com").data = true then
      match matchSlackURL u with
      | none =>
        .error (NewSlackError errCodeInvalidURL
          "invalid Slack message URL format. Expected: https://workspace.slack.com/archives/\x7bchannel_id\x7d/p\x7btimestamp\x7d")
      | some (channelID, rawTimestamp) =>
        match convertTimestamp rawTimestamp with
        | .error m => .error (NewSlackError errCodeInvalidURL m)
        | .ok timestamp =>
          let threadTS := queryGet ("thread_ts").data u.rawQuery
          if threadTS ≠ [] then
            .ok ⟨String.mk channelID, String.mk timestamp, String.mk threadTS, true⟩
          else
            .ok ⟨String.mk channelID, String.mk timestamp, "", false⟩
    else
      .error (NewSlackError errCodeInvalidURL "URL must be a slack.com URL")

/-- Structure `UserInfo` from `pkg/types/types.go`. -/
structure UserInfo where
  id : String
  name : String
  displayName : String
  realName : String
  isBot : Bool
  isDeleted : Bool
deriving DecidableEq, Repr

/-- Structure `Message` from `pkg/types/types.go` (the version with the
resolved name fields). -/
structure Message where
  user : String
  userName : String
  displayName : String
  realName : String
  text : String
  timestamp : String
  threadTS : String
  replyCount : Int
deriving DecidableEq, Repr

/-- Structure `SearchMatch` from `pkg/types/types.go`. -/
structure SearchMatch where
  channelID : String
  channelName : String
  user : String
  userName : String
  displayName : String
  realName : String
  text : String
  timestamp : String
  permalink : String
deriving DecidableEq, Repr

/-- The fields of the remote `slack.User` value read by `convertUser` in
`internal/slack/client.go`: id, handle, the two profile names, and the bot
and deleted flags. -/
structure SlackUser where
  id : String
  name : String
  profileDisplayName : String
  profileRealName : String
  isBot : Bool
  deleted : Bool
deriving DecidableEq, Repr

/-- Function `convertUser` from `internal/slack/client.go`: three-level
fallback for the display name (profile display name, then profile real
name, then handle). -/
def convertUser (user : SlackUser) : UserInfo :=
  let d1 := if user.profileDisplayName = "" then user.profileRealName
            else user.profileDisplayName
  let displayName := if d1 = "" then user.name else d1
  ⟨user.id, user.name, displayName, user.profileRealName, user.isBot, user.deleted⟩

/-- Helper: `strings.Contains` at the character-list level — `pat` occurs
as a contiguous run inside `s`. -/
def hasSubstring (s pat : List Char) : Bool :=
  match s with
  | [] => decide (pat = [])
  | _ :: rest => (stripPrefixChars pat s).isSome || hasSubstring rest pat

/-- Helper: `strings.Contains` at the `String` level. -/
def containsStr (s pat : String) : Bool :=
  hasSubstring s.data pat.data

/-- Function `wrapSlackError` from `internal/slack/errors.go`: classify a
transport error string into the closed error taxonomy by keyword matching,
in source order; anything unmatched is forwarded verbatim under the generic
`slack_error` code. -/
def wrapSlackError (errStr : String) : SlackError :=
  if containsStr errStr "rate_limit" || containsStr errStr "ratelimited" then
    NewSlackError errCodeRateLimited
      "Slack API rate limit exceeded. Please wait and try again."
  else if containsStr errStr "invalid_auth" || containsStr errStr "not_authed" then
    NewSlackError errCodeInvalidToken
      "Invalid or expired Slack bot token. Please check your SLACK_BOT_TOKEN."
  else if containsStr errStr "missing_scope" || containsStr errStr "token_expired" then
    NewSlackError errCodeInvalidToken
      "Slack bot token lacks required scopes or has expired."
  else if containsStr errStr "channel_not_found" then
    NewSlackError errCodeChannelNotFound
      "Channel not found. The channel may have been deleted or the ID is incorrect."
  else if containsStr errStr "not_in_channel" then
    NewSlackError errCodeNotInChannel
      "Bot is not a member of this channel. Please invite the bot to the channel."
  else if containsStr errStr "access_denied" || containsStr errStr "is_archived" then
    NewSlackError errCodePermissionDenied
      "Access denied. The channel may be archived or the bot lacks permissions."
  else if containsStr errStr "message_not_found" || containsStr errStr "thread_not_found" then
    NewSlackError errCodeMessageNotFound
      "Message or thread not found."
  else
    NewSlackError "slack_error" ("Slack API error: " ++ errStr)

/-- Helper: lookup in an association list, the model of a Go map or of the
`sync.Map` user cache (`Load`). -/
def lookupAssoc {α : Type} (key : String) : List (String × α) → Option α
  | [] => none
  | (k, v) :: r => if k = key then some v else lookupAssoc key r

/-- The deleted-user placeholder synthesized by `GetUserInfo` in
`internal/slack/client.go`. -/
def deletedUserPlaceholder (userID : String) : UserInfo :=
  ⟨userID, "deleted_user", "Deleted User", "Deleted User", false, true⟩

/-- The "user not found" test of `GetUserInfo`: the transport error text
contains `user_not_found` or `users_not_found`. -/
def isUserNotFoundErr (e : String) : Bool :=
  containsStr e "user_not_found" || containsStr e "users_not_found"

/-- Method `Client.GetUserInfo` from `internal/slack/client.go`.  The remote
`users.info` call is the function `api` (returning either a `SlackUser` or a
transport error string); the `sync.Map` cache is an association list
threaded through explicitly.  The returned triple is the Go return value
(`*types.UserInfo, error`, with `nil, nil` encoded as `.ok none`), the
cache after the call, and the number of remote calls performed. -/
def GetUserInfo (api : String → Except String SlackUser)
    (cache : List (String × UserInfo)) (userID : String) :
    Except SlackError (Option UserInfo) × List (String × UserInfo) × Nat :=
  if userID = "" then (.ok none, cache, 0)
  else
    match lookupAssoc userID cache with
    | some cached => (.ok (some cached), cache, 0)
    | none =>
      match api userID with
      | .error e =>
        if isUserNotFoundErr e = true then
          let deletedUser := deletedUserPlaceholder userID
          (.ok (some deletedUser), (userID, deletedUser) :: cache, 1)
        else
          (.error (wrapSlackError e), cache, 1)
      | .ok user =>
        let userInfo := convertUser user
        (.ok (some userInfo), (userID, userInfo) :: cache, 1)

/-- Method `Client.HasThread` from `internal/slack/client.go`: non-nil
message with a positive reply count. -/
def HasThread (message : Option Message) : Bool :=
  match message with
  | none => false
  | some m => decide (m.replyCount > 0)

/-- Result envelope `ReadMessageResult` from `pkg/types/types.go`; the Go
`nil` map and slice (omitted on serialization) are `none` and `[]`. -/
structure ReadMessageResult where
  message : Message
  thread : List Message
  channelID : String
  currentUser : Option UserInfo
  userMapping : Option (List (String × UserInfo))
deriving DecidableEq, Repr

/-- Result envelope `ListChannelMessagesResult` from `pkg/types/types.go`. -/
structure ListChannelMessagesResult where
  messages : List Message
  channelID : String
  hasMore : Bool
  currentUser : Option UserInfo
  userMapping : Option (List (String × UserInfo))
deriving DecidableEq, Repr

/-- Result envelope `SearchMessagesResult` from `pkg/types/types.go`. -/
structure SearchMessagesResult where
  query : String
  total : Int
  matchList : List SearchMatch
  currentUser : Option UserInfo
deriving DecidableEq, Repr

/-- The `mcp.CallToolResult` as the handlers build it: an error flag and the
single text content. -/
structure CallToolResult where
  isError : Bool
  text : String
deriving DecidableEq, Repr

/-- Constructor `mcp.NewToolResultError`. -/
def NewToolResultError (s : String) : CallToolResult := ⟨true, s⟩

/-- Constructor `mcp.NewToolResultText`. -/
def NewToolResultText (s : String) : CallToolResult := ⟨false, s⟩

/-- The `slackclient.ClientInterface` consumed by the three handlers,
as the Port of the spec: each field is one remote capability.
`getMessage`, `getThread`, `getChannelHistory` and `searchMessages` return
classified errors; `getUserInfo` and `getCurrentUser` may return `none`
without error (the Go `nil, nil` case); `extractMentions` is pure. -/
structure Port where
  getMessage : String → String → Except SlackError Message
  getThread : String → String → Except SlackError (List Message)
  hasThread : Option Message → Bool
  getUserInfo : String → Except SlackError (Option UserInfo)
  getCurrentUser : Except SlackError (Option UserInfo)
  extractMentions : String → List String
  getChannelHistory : String → Int → String → String → Except SlackError (List Message × Bool)
  searchMessages : String → Int → String → Except SlackError (List SearchMatch × Int)

/-- One recorded Port call, with the arguments the handler passed. -/
inductive PortCall where
  | getMessage (channelID timestamp : String)
  | getThread (channelID threadTS : String)
  | getUserInfo (userID : String)
  | getCurrentUser
  | getChannelHistory (channelID : String) (limit : Int) (oldest latest : String)
  | search (query : String) (count : Int) (sort : String)
deriving DecidableEq, Repr

/-- A loosely-typed tool-call argument value (`interface\x7b\x7d` in the Go
argument map): a string, a number, or anything else. -/
inductive ArgVal where
  | str (s : String)
  | num (n : Int)
  | other
deriving DecidableEq, Repr

/-- Method `resolveUserForMessage`, identical in
`internal/tools/read_message.go` and `internal/tools/list_channel_messages.go`:
populate the three derived name fields from the resolved user, and leave the
message unchanged when the author id is empty, the lookup fails, or the
lookup returns nil. -/
def resolveUserForMessage (port : Port) (msg : Message) : Message × List PortCall :=
  if msg.user = "" then (msg, [])
  else
    match port.getUserInfo msg.user with
    | .error _ => (msg, [.getUserInfo msg.user])
    | .ok none => (msg, [.getUserInfo msg.user])
    | .ok (some userInfo) =>
      ({ msg with
          userName := userInfo.name
          displayName := userInfo.displayName
          realName := userInfo.realName }, [.getUserInfo msg.user])

/-- Method `resolveUserForMatch` from `internal/tools/search_messages.go`:
the same population for a search match. -/
def resolveUserForMatch (port : Port) (m : SearchMatch) : SearchMatch × List PortCall :=
  if m.user = "" then (m, [])
  else
    match port.getUserInfo m.user with
    | .error _ => (m, [.getUserInfo m.user])
    | .ok none => (m, [.getUserInfo m.user])
    | .ok (some userInfo) =>
      ({ m with
          userName := userInfo.name
          displayName := userInfo.displayName
          realName := userInfo.realName }, [.getUserInfo m.user])

/-- The per-message resolution loops of the handlers (`for i := range ...
resolveUserForMessage`). -/
def resolveMessagesList (port : Port) : List Message → List Message × List PortCall
  | [] => ([], [])
  | m :: ms =>
    let r := resolveUserForMessage port m
    let rs := resolveMessagesList port ms
    (r.1 :: rs.1, r.2 ++ rs.2)

/-- The per-match resolution loop of the search handler. -/
def resolveMatchesList (port : Port) : List SearchMatch → List SearchMatch × List PortCall
  | [] => ([], [])
  | m :: ms =>
    let r := resolveUserForMatch port m
    let rs := resolveMatchesList port ms
    (r.1 :: rs.1, r.2 ++ rs.2)

/-- The mention-collection step of `buildUserMapping`: extract mentions from
every text, deduplicated (the Go boolean `seen` map) in first-occurrence
order. -/
def mentionedIDs (port : Port) (texts : List String) : List String :=
  texts.foldl
    (fun acc t =>
      (port.extractMentions t).foldl
        (fun a id => if a.contains id then a else a ++ [id]) acc)
    []

/-- The resolution step of `buildUserMapping`: resolve every mentioned id,
skipping ids whose lookup fails or returns nil. -/
def resolveMentions (port : Port) : List String → List (String × UserInfo) × List PortCall
  | [] => ([], [])
  | id :: rest =>
    let rs := resolveMentions port rest
    match port.getUserInfo id with
    | .error _ => (rs.1, .getUserInfo id :: rs.2)
    | .ok none => (rs.1, .getUserInfo id :: rs.2)
    | .ok (some userInfo) => ((id, userInfo) :: rs.1, .getUserInfo id :: rs.2)

/-- Method `buildUserMapping`, shared shape of
`internal/tools/read_message.go` and `list_channel_messages.go`: nil when no
mentions were found or no mentioned user resolved, otherwise the
id-to-identity mapping. -/
def buildUserMapping (port : Port) (texts : List String) :
    Option (List (String × UserInfo)) × List PortCall :=
  let ids := mentionedIDs port texts
  if ids = [] then (none, [])
  else
    let r := resolveMentions port ids
    (if r.1 = [] then none else some r.1, r.2)

/-- Method `handleError` from `internal/tools/read_message.go`: map the
classified error code to the fixed user-facing message. -/
def handleReadError (err : SlackError) : CallToolResult :=
  if err.code = errCodeRateLimited then
    NewToolResultError
      "Rate limit exceeded. Slack limits API requests to approximately 1 per minute for non-marketplace apps. Please wait and try again."
  else if err.code = errCodeInvalidToken then
    NewToolResultError
      "Authentication failed. Please check that SLACK_BOT_TOKEN is valid and not expired."
  else if err.code = errCodeChannelNotFound then
    NewToolResultError
      "Channel not found. The channel may have been deleted, or the ID in the URL is incorrect."
  else if err.code = errCodeNotInChannel then
    NewToolResultError
      "The bot is not a member of this channel. Please invite the bot to the channel first."
  else if err.code = errCodeMessageNotFound then
    NewToolResultError
      "Message not found. The message may have been deleted, or the timestamp in the URL is incorrect."
  else if err.code = errCodePermissionDenied then
    NewToolResultError
      "Permission denied. The bot may lack required scopes or the channel is archived."
  else if err.code = errCodeInvalidURL then
    NewToolResultError
      ("Invalid Slack URL format. Expected: https://workspace.slack.com/archives/\x7bchannel_id\x7d/p\x7btimestamp\x7d\n\nDetails: "
        ++ err.message)
  else
    NewToolResultError ("Failed to read message: " ++ err.message)

/-- Method `handlePartialResult` from `internal/tools/read_message.go`: a
success result carrying the serialized partial envelope followed by the
thread-fetch warning note. -/
def handlePartialResult (encode : ReadMessageResult → String)
    (result : ReadMessageResult) (threadErr : SlackError) : CallToolResult :=
  NewToolResultText
    (encode result ++ "\n\nNote: Failed to fetch thread replies: " ++ threadErr.message)

/-- Method `ReadMessageHandler.Handle` from
`internal/tools/read_message.go`, with the serializer passed in as `encode`
and the Port calls recorded in program order.  A missing or non-string
`url` argument reaches the handler as the empty string
(`mcp.ExtractString`). -/
def handleReadMessage (encode : ReadMessageResult → String) (port : Port)
    (url : String) : CallToolResult × List PortCall :=
  if url = "" then (NewToolResultError "missing required argument \x27url\x27", [])
  else
    match Parse url with
    | .error e => (handleReadError e, [])
    | .ok parsedURL =>
      match port.getMessage parsedURL.channelID parsedURL.timestamp with
      | .error e =>
        (handleReadError e, [.getMessage parsedURL.channelID parsedURL.timestamp])
      | .ok message0 =>
        let r1 := resolveUserForMessage port message0
        let message := r1.1
        let shouldFetchThread := parsedURL.isThread || port.hasThread (some message)
        if shouldFetchThread = true then
          let threadTS :=
            if parsedURL.threadTS = "" then message.timestamp else parsedURL.threadTS
          match port.getThread parsedURL.channelID threadTS with
          | .error e =>
            (handlePartialResult encode ⟨message, [], parsedURL.channelID, none, none⟩ e,
              .getMessage parsedURL.channelID parsedURL.timestamp ::
                r1.2 ++ [.getThread parsedURL.channelID threadTS])
          | .ok thread0 =>
            let r2 := resolveMessagesList port thread0
            let r3 := buildUserMapping port (message.text :: r2.1.map Message.text)
            (NewToolResultText (encode ⟨message, r2.1, parsedURL.channelID, none, r3.1⟩),
              .getMessage parsedURL.channelID parsedURL.timestamp ::
                r1.2 ++ .getThread parsedURL.channelID threadTS :: r2.2 ++ r3.2)
        else
          let r3 := buildUserMapping port [message.text]
          (NewToolResultText (encode ⟨message, [], parsedURL.channelID, none, r3.1⟩),
            .getMessage parsedURL.channelID parsedURL.timestamp :: r1.2 ++ r3.2)

/-- Method `handleError` from `internal/tools/list_channel_messages.go`. -/
def handleListError (err : SlackError) : CallToolResult :=
  if err.code = errCodeRateLimited then
    NewToolResultError
      "Rate limit exceeded. Slack limits API requests to approximately 1 per minute for non-marketplace apps. Please wait and try again."
  else if err.code = errCodeInvalidToken then
    NewToolResultError
      "Authentication failed. Please check that SLACK_BOT_TOKEN is valid and not expired."
  else if err.code = errCodeChannelNotFound then
    NewToolResultError
      "Channel not found. The channel may have been deleted, or the channel_id is incorrect."
  else if err.code = errCodeNotInChannel then
    NewToolResultError
      "The bot is not a member of this channel. Please invite the bot to the channel first."
  else if err.code = errCodePermissionDenied then
    NewToolResultError
      "Permission denied. The bot may lack required scopes or the channel is archived."
  else
    NewToolResultError ("Failed to list channel messages: " ++ err.message)

/-- Integer-argument extraction shared by the list and search handlers
(`float64`/`int` accepted, anything else a type error, absent means the
default). -/
def extractIntArg (args : List (String × ArgVal)) (name : String)
    (default : Int) : Except CallToolResult Int :=
  match lookupAssoc name args with
  | none => .ok default
  | some (.num n) => .ok n
  | some _ =>
    .error (NewToolResultError ("argument \x27" ++ name ++ "\x27 must be a number"))

/-- Optional string-argument extraction of the list handler (`oldest`,
`latest`): absent means empty, non-string is a type error. -/
def extractOptStringArg (args : List (String × ArgVal)) (name : String) :
    Except CallToolResult String :=
  match lookupAssoc name args with
  | none => .ok ""
  | some (.str v) => .ok v
  | some _ =>
    .error (NewToolResultError
      ("argument \x27" ++ name ++ "\x27 must be a string (Unix timestamp)"))

/-- Method `ListChannelMessagesHandler.Handle` from
`internal/tools/list_channel_messages.go`, with the serializer passed in as
`encode` and the Port calls recorded in program order. -/
def handleListChannelMessages (encode : ListChannelMessagesResult → String)
    (port : Port) (args : List (String × ArgVal)) : CallToolResult × List PortCall :=
  match lookupAssoc "channel_id" args with
  | none => (NewToolResultError "missing required argument \x27channel_id\x27", [])
  | some (.num _) => (NewToolResultError "argument \x27channel_id\x27 must be a string", [])
  | some .other => (NewToolResultError "argument \x27channel_id\x27 must be a string", [])
  | some (.str channelID) =>
    if channelID = "" then
      (NewToolResultError "argument \x27channel_id\x27 cannot be empty", [])
    else
      match extractIntArg args "limit" 100 with
      | .error r => (r, [])
      | .ok limit0 =>
        let limit1 := if limit0 < 1 then 1 else limit0
        let limit := if limit1 > 200 then 200 else limit1
        match extractOptStringArg args "oldest" with
        | .error r => (r, [])
        | .ok oldest =>
          match extractOptStringArg args "latest" with
          | .error r => (r, [])
          | .ok latest =>
            match port.getChannelHistory channelID limit oldest latest with
            | .error e =>
              (handleListError e, [.getChannelHistory channelID limit oldest latest])
            | .ok (messages0, hasMore) =>
              let r1 := resolveMessagesList port messages0
              let r2 := buildUserMapping port (r1.1.map Message.text)
              let currentUser :=
                match port.getCurrentUser with
                | .ok (some u) => some u
                | _ => none
              (NewToolResultText
                  (encode ⟨r1.1, channelID, hasMore, currentUser, r2.1⟩),
                .getChannelHistory channelID limit oldest latest ::
                  r1.2 ++ r2.2 ++ [.getCurrentUser])

/-- Method `handleError` from `internal/tools/search_messages.go`. -/
def handleSearchError (err : SlackError) : CallToolResult :=
  if err.code = errCodeUserTokenNotConfigured then
    NewToolResultError
      "SLACK_USER_TOKEN not configured. The search_messages tool requires a user token (xoxp-) with the search:read scope. Please set the SLACK_USER_TOKEN environment variable."
  else if err.code = errCodeRateLimited then
    NewToolResultError
      "Rate limit exceeded. Slack limits API requests. Please wait and try again."
  else if err.code = errCodeInvalidToken then
    NewToolResultError
      "Authentication failed. Please check that SLACK_USER_TOKEN is valid and not expired."
  else if err.code = errCodePermissionDenied then
    NewToolResultError
      "Permission denied. The user token may lack the search:read scope."
  else
    NewToolResultError ("Failed to search messages: " ++ err.message)

/-- Method `SearchMessagesHandler.Handle` from
`internal/tools/search_messages.go`, with the serializer passed in as
`encode` and the Port calls recorded in program order. -/
def handleSearchMessages (encode : SearchMessagesResult → String)
    (port : Port) (args : List (String × ArgVal)) : CallToolResult × List PortCall :=
  match lookupAssoc "query" args with
  | none => (NewToolResultError "missing required argument \x27query\x27", [])
  | some (.num _) => (NewToolResultError "argument \x27query\x27 must be a string", [])
  | some .other => (NewToolResultError "argument \x27query\x27 must be a string", [])
  | some (.str query) =>
    if query = "" then
      (NewToolResultError "argument \x27query\x27 cannot be empty", [])
    else
      match extractIntArg args "count" 20 with
      | .error r => (r, [])
      | .ok count0 =>
        let count1 := if count0 < 1 then 1 else count0
        let count := if count1 > 100 then 100 else count1
        let sort :=
          match lookupAssoc "sort" args with
          | some (.str v) => if v = "score" ∨ v = "timestamp" then v else "score"
          | _ => "score"
        match port.searchMessages query count sort with
        | .error e => (handleSearchError e, [.search query count sort])
        | .ok (matches0, total) =>
          let r1 := resolveMatchesList port matches0
          let currentUser :=
            match port.getCurrentUser with
            | .ok (some u) => some u
            | _ => none
          (NewToolResultText (encode ⟨query, total, r1.1, currentUser⟩),
            .search query count sort :: r1.2 ++ [.getCurrentUser])

/-- Test-harness URL builder, mirroring how the repository's own parser
tests assemble message URLs: workspace-host part `X` (the `[^/]+` before
`.slack.com`), channel id `C`, path timestamp `D`, raw query `Q` and
fragment `F`. -/
def buildSlackURL (X C D Q F : List Char) : String :=
  String.mk (("https://").data ++ (X ++ ((".slack.com/archives/").data ++
    (C ++ (("/p").data ++ (D ++ ('?' :: (Q ++ ('#' :: F)))))))))

/-- Test-harness query assembly: join `key=value` pairs with `&`, as the
thread URLs in the repository's tests are written. -/
def joinParams : List (List Char × List Char) → List Char
  | [] => []
  | (k, v) :: rest =>
    k ++ '=' :: v ++ (match rest with
      | [] => []
      | _ :: _ => '&' :: joinParams rest)

/-- First value recorded for a key in a parameter list (what
`url.Values.Get` returns once the query is parsed). -/
def lookupFirst (key : List Char) : List (List Char × List Char) → Option (List Char)
  | [] => none
  | (k, v) :: rest => if k = key then some v else lookupFirst key rest

/-- Well-formedness of one query parameter for the round trip through
`joinParams` and the query parser: no separator characters in the key, no
`&`, `;` or `#` in the value, non-empty key without `=`. -/
def wfParam (p : List Char × List Char) : Prop :=
  p.1 ≠ [] ∧ '&' ∉ p.1 ∧ '=' ∉ p.1 ∧ ';' ∉ p.1 ∧ '#' ∉ p.1 ∧
    '&' ∉ p.2 ∧ ';' ∉ p.2 ∧ '#' ∉ p.2

instance wfParamDecidable (p : List Char × List Char) : Decidable (wfParam p) := by
  unfold wfParam
  exact inferInstance

/-- Concrete fixture: the current-user identity a stub Port returns, the
values of `TestReadMessage_CurrentUser` in
`internal/tools/read_message_test.go`. -/
def botUser : UserInfo :=
  ⟨"UBOTUSER1", "my_slack_bot", "My Slack Bot", "My Slack Bot", true, false⟩

/-- Concrete fixture: the mocked primary message of the handler tests. -/
def sampleMessage : Message :=
  ⟨"U12345678", "", "", "", "Hello, world!", "1355517523.000008", "", 0⟩

/-- Concrete fixture: a thread-parent variant of the mocked message. -/
def parentMessage : Message :=
  ⟨"U12345678", "", "", "", "Thread parent", "1355517523.000008", "", 2⟩

/-- Concrete fixture: the message URL used across the handler tests. -/
def sampleURL : String :=
  "https://workspace.slack.com/archives/C01234567/p1355517523000008"

/-- Concrete fixture: a stub Port in the style of `mockSlackClient` in
`internal/tools/read_message_test.go`: the primary fetch returns
`sampleMessage`, user lookups return nil without error, the current user is
`botUser`, and `hasThread` is the real `Client.HasThread`. -/
def testPort : Port where
  getMessage := fun _ _ => .ok sampleMessage
  getThread := fun _ _ => .ok []
  hasThread := HasThread
  getUserInfo := fun _ => .ok none
  getCurrentUser := .ok (some botUser)
  extractMentions := fun _ => []
  getChannelHistory := fun _ _ _ _ => .ok ([sampleMessage], false)
  searchMessages := fun _ _ _ => .ok ([], 0)

/-- Concrete fixture: like `testPort` but the primary message is a thread
parent and the thread fetch fails, the partial-result scenario of the
claims. -/
def testPortThreadFail : Port where
  getMessage := fun _ _ => .ok parentMessage
  getThread := fun _ _ =>
    .error (NewSlackError errCodeRateLimited "rate limited while fetching thread")
  hasThread := HasThread
  getUserInfo := fun _ => .ok none
  getCurrentUser := .ok (some botUser)
  extractMentions := fun _ => []
  getChannelHistory := fun _ _ _ _ => .ok ([parentMessage], false)
  searchMessages := fun _ _ _ => .ok ([], 0)

/-- Concrete fixture: a remote directory entry for the resolver claims. -/
def aliceUser : SlackUser := ⟨"U1", "alice", "Alice", "Alice A", false, false⟩

/-- Concrete observer standing in for the JSON serializer in closed
theorems about the read envelope: it reports only whether `current_user`
would be present. -/
def obsReadCurrentUser (r : ReadMessageResult) : String :=
  match r.currentUser with
  | none => "current_user absent"
  | some _ => "current_user present"

/-- Concrete observer for the list envelope. -/
def obsListCurrentUser (r : ListChannelMessagesResult) : String :=
  match r.currentUser with
  | none => "current_user absent"
  | some _ => "current_user present"

/-- Concrete observer for the search envelope. -/
def obsSearchCurrentUser (r : SearchMessagesResult) : String :=
  match r.currentUser with
  | none => "current_user absent"
  | some _ => "current_user present"

/-! Shared helper lemmas. -/

/-- Appending strings appends their character lists. -/
theorem strData_append (a b : String) : (a ++ b).data = a.data ++ b.data := by
  cases a
  cases b
  rfl

/-- A character absent from both halves is absent from the append. -/
theorem not_mem_append_chars {c : Char} {a b : List Char}
    (ha : c ∉ a) (hb : c ∉ b) : c ∉ a ++ b := by
  intro h
  rcases List.mem_append.mp h with h | h
  · exact ha h
  · exact hb h

/-- A character failing a predicate satisfied by all of `l` is not in `l`. -/
theorem not_mem_of_all_eq_false {p : Char → Bool} {l : List Char} {c : Char}
    (h : l.all p = true) (hc : p c = false) : c ∉ l := by
  intro hm
  have h2 := List.all_eq_true.mp h c hm
  rw [hc] at h2
  exact Bool.noConfusion h2

/-! Claim C2: timestamp conversion. -/

/-- Claim C2: for every string of exactly 16 decimal digits `D1..D16`,
timestamp conversion succeeds and returns `D1..D10 ++ "." ++ D11..D16`, and
deleting the dot from the converted form recovers the original string; for
every input that is not exactly 16 digits, conversion fails. -/
theorem convertTimestamp_digits_roundtrip (s : String) :
    (s.data.length = 16 → s.data.all isDigitChar = true →
      ConvertTimestamp s = .ok (String.mk (s.data.take 10 ++ '.' :: s.data.drop 10)) ∧
      (s.data.take 10 ++ '.' :: s.data.drop 10).filter (fun c => decide (c ≠ '.')) = s.data) ∧
    (¬ (s.data.length = 16 ∧ s.data.all isDigitChar = true) →
      ∃ m, ConvertTimestamp s = .error m) := by
  constructor
  · intro h16 hdig
    constructor
    · simp [ConvertTimestamp, convertTimestamp, h16, hdig]
    · have hne : ∀ c ∈ s.data, (fun c => decide (c ≠ '.')) c = true := by
        intro c hc
        have hd := List.all_eq_true.mp hdig c hc
        simp only [decide_eq_true_eq]
        intro heq
        subst heq
        exact absurd hd (by decide)
      rw [List.filter_append, List.filter_cons]
      simp only [decide_eq_true_eq, ne_eq, not_true_eq_false, if_false]
      rw [List.filter_eq_self.mpr fun c hc => hne c (List.take_subset 10 s.data hc),
        List.filter_eq_self.mpr fun c hc => hne c (List.drop_subset 10 s.data hc)]
      exact List.take_append_drop 10 s.data
  · intro h
    by_cases h16 : s.data.length = 16
    · have hd : s.data.all isDigitChar = false := by
        cases hall : s.data.all isDigitChar
        · rfl
        · exact absurd ⟨h16, hall⟩ h
      refine ⟨"invalid timestamp format: contains non-digit characters", ?_⟩
      unfold ConvertTimestamp convertTimestamp
      rw [if_neg (by simpa using h16), if_pos (by simp [hd])]
    · refine ⟨"invalid timestamp format: expected 16 digits, got " ++
        toString s.data.length, ?_⟩
      unfold ConvertTimestamp convertTimestamp
      rw [if_pos h16]

/-- Witness for C2 at the timestamp of the repository's own tests. -/
theorem convertTimestamp_digits_roundtrip_witness :
    ConvertTimestamp "1355517523000008" = .ok "1355517523.000008" ∧
    (∃ m, ConvertTimestamp "135551752300000" = .error m) := by
  have h := (convertTimestamp_digits_roundtrip "1355517523000008").1 (by decide) (by decide)
  refine ⟨h.1.trans (congrArg Except.ok (by decide)), ?_⟩
  exact (convertTimestamp_digits_roundtrip "135551752300000").2 (by decide)

/-! Claim C5: resolver idempotence through the cache. -/

/-- Claim C5: for any non-empty id, once a `GetUserInfo` call has succeeded
with some identity (caching it), a second call for the same id — with the
remote directory answering arbitrarily differently — returns exactly the
value of the first call and performs no remote call. -/
theorem getUserInfo_cache_idempotent
    (api1 api2 : String → Except String SlackUser)
    (c0 c1 : List (String × UserInfo)) (id : String) (v : UserInfo) (n : Nat)
    (hid : id ≠ "")
    (h1 : GetUserInfo api1 c0 id = (.ok (some v), c1, n)) :
    GetUserInfo api2 c1 id = (.ok (some v), c1, 0) := by
  unfold GetUserInfo at h1 ⊢
  rw [if_neg hid] at h1 ⊢
  cases hl : lookupAssoc id c0 with
  | some cached =>
    rw [hl] at h1
    simp only [Prod.mk.injEq, Except.ok.injEq, Option.some.injEq] at h1
    obtain ⟨hv, hc, -⟩ := h1
    subst hv
    rw [← hc, hl]
  | none =>
    rw [hl] at h1
    cases ha : api1 id with
    | error e =>
      rw [ha] at h1
      dsimp only at h1
      by_cases hnf : isUserNotFoundErr e = true
      · rw [if_pos hnf] at h1
        simp only [Prod.mk.injEq, Except.ok.injEq, Option.some.injEq] at h1
        obtain ⟨hv, hc, -⟩ := h1
        subst hv
        rw [← hc]
        simp [lookupAssoc]
      · rw [if_neg hnf] at h1
        simp at h1
    | ok user =>
      rw [ha] at h1
      dsimp only at h1
      simp only [Prod.mk.injEq, Except.ok.injEq, Option.some.injEq] at h1
      obtain ⟨hv, hc, -⟩ := h1
      subst hv
      rw [← hc]
      simp [lookupAssoc]

/-- Witness for C5: the first call caches Alice; the second call, whose stub
would fail, still returns Alice with no remote call. -/
theorem getUserInfo_cache_idempotent_witness :
    GetUserInfo (fun _ => .error "second call would differ")
      [("U1", convertUser aliceUser)] "U1" =
      (.ok (some (convertUser aliceUser)), [("U1", convertUser aliceUser)], 0) := by
  have h1 : GetUserInfo (fun _ => .ok aliceUser) [] "U1" =
      (.ok (some (convertUser aliceUser)), [("U1", convertUser aliceUser)], 1) := rfl
  exact getUserInfo_cache_idempotent (fun _ => .ok aliceUser)
    (fun _ => .error "second call would differ") [] _ "U1" _ 1 (by decide) h1

/-! Claim C6: deleted-user placeholder and error propagation. -/

/-- Claim C6: on a cache miss for a non-empty id, a remote "user not found"
failure yields a cached placeholder identity (`isDeleted`, handle
`deleted_user`) and no error, while any other failure class is propagated
as the classified error without caching. -/
theorem getUserInfo_not_found_placeholder
    (api : String → Except String SlackUser) (cache : List (String × UserInfo))
    (id e : String)
    (hid : id ≠ "") (hmiss : lookupAssoc id cache = none) (happ : api id = .error e) :
    (isUserNotFoundErr e = true →
      GetUserInfo api cache id =
        (.ok (some (deletedUserPlaceholder id)),
          (id, deletedUserPlaceholder id) :: cache, 1) ∧
      (deletedUserPlaceholder id).isDeleted = true ∧
      (deletedUserPlaceholder id).name = "deleted_user") ∧
    (isUserNotFoundErr e = false →
      GetUserInfo api cache id = (.error (wrapSlackError e), cache, 1)) := by
  constructor
  · intro hnf
    refine ⟨?_, rfl, rfl⟩
    simp [GetUserInfo, hid, hmiss, happ, hnf]
  · intro hnf
    simp [GetUserInfo, hid, hmiss, happ, hnf]

/-- Witness for C6 at a `users_not_found` error and a transport error. -/
theorem getUserInfo_not_found_placeholder_witness :
    GetUserInfo (fun _ => .error "slack server error: users_not_found") [] "U404" =
      (.ok (some (deletedUserPlaceholder "U404")),
        [("U404", deletedUserPlaceholder "U404")], 1) ∧
    GetUserInfo (fun _ => .error "connection reset by peer") [] "U500" =
      (.error (wrapSlackError "connection reset by peer"), [], 1) := by
  constructor
  · exact ((getUserInfo_not_found_placeholder _ [] "U404"
      "slack server error: users_not_found" (by decide) rfl rfl).1 (by decide)).1
  · exact (getUserInfo_not_found_placeholder _ [] "U500"
      "connection reset by peer" (by decide) rfl rfl).2 (by decide)

/-! Claim C10: per-item identity resolution is a frame on the message. -/

/-- Claim C10: per-item identity resolution mutates only the derived name
fields — author id, text, timestamp, thread anchor and reply count are
unchanged on every message (and the corresponding fields on every search
match) — and when the author id is empty, the lookup fails, or the lookup
returns nil, the item is left entirely unchanged. -/
theorem resolveUser_frame (port : Port) :
    (∀ msg : Message,
      ((resolveUserForMessage port msg).1.user = msg.user ∧
        (resolveUserForMessage port msg).1.text = msg.text ∧
        (resolveUserForMessage port msg).1.timestamp = msg.timestamp ∧
        (resolveUserForMessage port msg).1.threadTS = msg.threadTS ∧
        (resolveUserForMessage port msg).1.replyCount = msg.replyCount) ∧
      (msg.user = "" ∨ (∃ e, port.getUserInfo msg.user = .error e) ∨
          port.getUserInfo msg.user = .ok none →
        (resolveUserForMessage port msg).1 = msg)) ∧
    (∀ m : SearchMatch,
      ((resolveUserForMatch port m).1.channelID = m.channelID ∧
        (resolveUserForMatch port m).1.channelName = m.channelName ∧
        (resolveUserForMatch port m).1.user = m.user ∧
        (resolveUserForMatch port m).1.text = m.text ∧
        (resolveUserForMatch port m).1.timestamp = m.timestamp ∧
        (resolveUserForMatch port m).1.permalink = m.permalink) ∧
      (m.user = "" ∨ (∃ e, port.getUserInfo m.user = .error e) ∨
          port.getUserInfo m.user = .ok none →
        (resolveUserForMatch port m).1 = m)) := by
  constructor
  · intro msg
    constructor
    · by_cases hu : msg.user = ""
      · simp [resolveUserForMessage, hu]
      · cases hg : port.getUserInfo msg.user with
        | error e => simp [resolveUserForMessage, hu, hg]
        | ok o =>
          cases o with
          | none => simp [resolveUserForMessage, hu, hg]
          | some ui => simp [resolveUserForMessage, hu, hg]
    · intro hpre
      by_cases hu : msg.user = ""
      · simp [resolveUserForMessage, hu]
      · rcases hpre with hpre | ⟨e, he⟩ | hn
        · exact absurd hpre hu
        · simp [resolveUserForMessage, hu, he]
        · simp [resolveUserForMessage, hu, hn]
  · intro m
    constructor
    · by_cases hu : m.user = ""
      · simp [resolveUserForMatch, hu]
      · cases hg : port.getUserInfo m.user with
        | error e => simp [resolveUserForMatch, hu, hg]
        | ok o =>
          cases o with
          | none => simp [resolveUserForMatch, hu, hg]
          | some ui => simp [resolveUserForMatch, hu, hg]
    · intro hpre
      by_cases hu : m.user = ""
      · simp [resolveUserForMatch, hu]
      · rcases hpre with hpre | ⟨e, he⟩ | hn
        · exact absurd hpre hu
        · simp [resolveUserForMatch, hu, he]
        · simp [resolveUserForMatch, hu, hn]

/-- Witness for C10: a nil lookup leaves the sample message unchanged. -/
theorem resolveUser_frame_witness :
    (resolveUserForMessage testPort sampleMessage).1 = sampleMessage :=
  ((resolveUser_frame testPort).1 sampleMessage).2 (Or.inr (Or.inr rfl))

/-! Claim C4: current-identity attachment across the three operations. -/

/-- Claim C4 (divergence evidence): with a Port whose current-identity call
succeeds with `botUser`, the list and search handlers attach the identity
to their envelopes, but the read-message handler leaves `current_user`
absent and never even calls the current-identity Port capability. -/
theorem read_message_omits_current_user :
    testPort.getCurrentUser = .ok (some botUser) ∧
    (handleReadMessage obsReadCurrentUser testPort sampleURL).1 =
      NewToolResultText "current_user absent" ∧
    PortCall.getCurrentUser ∉ (handleReadMessage obsReadCurrentUser testPort sampleURL).2 ∧
    (handleListChannelMessages obsListCurrentUser testPort
        [("channel_id", .str "C01234567")]).1 = NewToolResultText "current_user present" ∧
    (handleSearchMessages obsSearchCurrentUser testPort
        [("query", .str "hello")]).1 = NewToolResultText "current_user present" := by
  refine ⟨rfl, ?_, ?_, ?_, ?_⟩ <;> decide

/-! Claim C9: search argument validation, clamping and sort fallback. -/

/-- Claim C9: a missing or empty query is a fatal error before any Port
call; the count passed to the Port is the input clamped to `[1, 100]`
(default 20 when absent); any sort value other than `score` and
`timestamp` is silently replaced by `score` (as is an absent sort). -/
theorem searchMessages_argument_policy (encode : SearchMessagesResult → String)
    (port : Port) :
    (∀ args, lookupAssoc "query" args = none →
      handleSearchMessages encode port args =
        (NewToolResultError "missing required argument \x27query\x27", [])) ∧
    (∀ args, lookupAssoc "query" args = some (.str "") →
      handleSearchMessages encode port args =
        (NewToolResultError "argument \x27query\x27 cannot be empty", [])) ∧
    (∀ args q n, lookupAssoc "query" args = some (.str q) → q ≠ "" →
      lookupAssoc "count" args = some (.num n) →
      ∃ s rest, (handleSearchMessages encode port args).2 =
        PortCall.search q (if n < 1 then 1 else if n > 100 then 100 else n) s :: rest) ∧
    (∀ args q, lookupAssoc "query" args = some (.str q) → q ≠ "" →
      lookupAssoc "count" args = none →
      ∃ s rest, (handleSearchMessages encode port args).2 =
        PortCall.search q 20 s :: rest) ∧
    (∀ args q v, lookupAssoc "query" args = some (.str q) → q ≠ "" →
      (lookupAssoc "count" args = none ∨ ∃ n, lookupAssoc "count" args = some (.num n)) →
      lookupAssoc "sort" args = some (.str v) → v ≠ "score" → v ≠ "timestamp" →
      ∃ c rest, (handleSearchMessages encode port args).2 =
        PortCall.search q c "score" :: rest) ∧
    (∀ args q, lookupAssoc "query" args = some (.str q) → q ≠ "" →
      (lookupAssoc "count" args = none ∨ ∃ n, lookupAssoc "count" args = some (.num n)) →
      lookupAssoc "sort" args = none →
      ∃ c rest, (handleSearchMessages encode port args).2 =
        PortCall.search q c "score" :: rest) := by
  have key : ∀ (args : List (String × ArgVal)) (q : String) (cnt : Int),
      lookupAssoc "query" args = some (.str q) → q ≠ "" →
      extractIntArg args "count" 20 = .ok cnt →
      ∃ rest, (handleSearchMessages encode port args).2 =
        PortCall.search q
          (if (if cnt < 1 then (1 : Int) else cnt) > 100 then 100
            else if cnt < 1 then 1 else cnt)
          (match lookupAssoc "sort" args with
            | some (.str v) => if v = "score" ∨ v = "timestamp" then v else "score"
            | _ => "score") :: rest := by
    intro args q cnt hq hq' hc
    unfold handleSearchMessages
    rw [hq]
    dsimp only
    rw [if_neg hq', hc]
    dsimp only
    split
    · exact ⟨_, rfl⟩
    · exact ⟨_, rfl⟩
  refine ⟨?_, ?_, ?_, ?_, ?_, ?_⟩
  · intro args hq
    simp [handleSearchMessages, hq]
  · intro args hq
    simp [handleSearchMessages, hq]
  · intro args q n hq hq' hc
    have hcnt : extractIntArg args "count" 20 = .ok n := by
      unfold extractIntArg
      rw [hc]
    obtain ⟨rest, hr⟩ := key args q n hq hq' hcnt
    rw [hr]
    have hcc : (if (if n < 1 then (1 : Int) else n) > 100 then (100 : Int)
        else if n < 1 then 1 else n) = if n < 1 then 1 else if n > 100 then 100 else n := by
      split_ifs <;> omega
    rw [hcc]
    exact ⟨_, _, rfl⟩
  · intro args q hq hq' hc
    have hcnt : extractIntArg args "count" 20 = .ok 20 := by
      unfold extractIntArg
      rw [hc]
    obtain ⟨rest, hr⟩ := key args q 20 hq hq' hcnt
    rw [hr]
    norm_num
  · intro args q v hq hq' hcopt hs hv1 hv2
    have hcnt : ∃ cnt, extractIntArg args "count" 20 = .ok cnt := by
      rcases hcopt with hc | ⟨n, hc⟩
      · exact ⟨20, by unfold extractIntArg; rw [hc]⟩
      · exact ⟨n, by unfold extractIntArg; rw [hc]⟩
    obtain ⟨cnt, hcnt⟩ := hcnt
    obtain ⟨rest, hr⟩ := key args q cnt hq hq' hcnt
    rw [hr, hs]
    dsimp only
    rw [if_neg (show ¬ (v = "score" ∨ v = "timestamp") from by simp [hv1, hv2])]
    exact ⟨_, _, rfl⟩
  · intro args q hq hq' hcopt hs
    have hcnt : ∃ cnt, extractIntArg args "count" 20 = .ok cnt := by
      rcases hcopt with hc | ⟨n, hc⟩
      · exact ⟨20, by unfold extractIntArg; rw [hc]⟩
      · exact ⟨n, by unfold extractIntArg; rw [hc]⟩
    obtain ⟨cnt, hcnt⟩ := hcnt
    obtain ⟨rest, hr⟩ := key args q cnt hq hq' hcnt
    rw [hr, hs]
    exact ⟨_, _, rfl⟩

/-- Witness for C9: count -10 clamps to 1, count 500 clamps to 100, default
count is 20, sort `bogus` falls back to `score`, and a missing or empty
query fails before any Port call. -/
theorem searchMessages_argument_policy_witness :
    handleSearchMessages obsSearchCurrentUser testPort [("count", .num 5)] =
      (NewToolResultError "missing required argument \x27query\x27", []) ∧
    handleSearchMessages obsSearchCurrentUser testPort [("query", .str "")] =
      (NewToolResultError "argument \x27query\x27 cannot be empty", []) ∧
    (∃ s rest, (handleSearchMessages obsSearchCurrentUser testPort
        [("query", .str "deploy"), ("count", .num (-10))]).2 =
      PortCall.search "deploy" 1 s :: rest) ∧
    (∃ s rest, (handleSearchMessages obsSearchCurrentUser testPort
        [("query", .str "deploy"), ("count", .num 500)]).2 =
      PortCall.search "deploy" 100 s :: rest) ∧
    (∃ s rest, (handleSearchMessages obsSearchCurrentUser testPort
        [("query", .str "deploy")]).2 = PortCall.search "deploy" 20 s :: rest) ∧
    (∃ c rest, (handleSearchMessages obsSearchCurrentUser testPort
        [("query", .str "deploy"), ("sort", .str "bogus")]).2 =
      PortCall.search "deploy" c "score" :: rest) := by
  have h := searchMessages_argument_policy obsSearchCurrentUser testPort
  refine ⟨h.1 _ (by decide), h.2.1 _ (by decide), ?_, ?_, ?_, ?_⟩
  · have := h.2.2.1 [("query", .str "deploy"), ("count", .num (-10))]
      "deploy" (-10) (by decide) (by decide) (by decide)
    simpa using this
  · have := h.2.2.1 [("query", .str "deploy"), ("count", .num 500)]
      "deploy" 500 (by decide) (by decide) (by decide)
    simpa using this
  · exact h.2.2.2.1 [("query", .str "deploy")] "deploy" (by decide) (by decide) (by decide)
  · exact h.2.2.2.2.1 [("query", .str "deploy"), ("sort", .str "bogus")] "deploy" "bogus"
      (by decide) (by decide) (Or.inl (by decide)) (by decide) (by decide) (by decide)

/-! Helper lemmas about the character-level string operations of the URL
parser. -/

/-- Splitting at an absent separator returns the whole list. -/
theorem splitFirst_of_not_mem {c : Char} {l : List Char} (h : c ∉ l) :
    splitFirst c l = (l, none) := by
  induction l with
  | nil => rfl
  | cons a as ih =>
    have ha : ¬ a = c := fun he => h (by rw [← he]; exact List.mem_cons_self a as)
    have h2 : c ∉ as := fun hm => h (List.mem_cons_of_mem a hm)
    simp [splitFirst, if_neg ha, ih h2]

/-- Splitting at the first separator occurrence. -/
theorem splitFirst_append {c : Char} {a : List Char} (b : List Char) (h : c ∉ a) :
    splitFirst c (a ++ c :: b) = (a, some b) := by
  induction a with
  | nil => simp [splitFirst]
  | cons x xs ih =>
    have hx : ¬ x = c := fun he => h (by rw [← he]; exact List.mem_cons_self x xs)
    have h2 : c ∉ xs := fun hm => h (List.mem_cons_of_mem x hm)
    simp [splitFirst, if_neg hx, ih h2]

/-- Splitting a list presented as a decomposition. -/
theorem splitFirst_decomp {c : Char} {l a b : List Char}
    (hl : l = a ++ c :: b) (ha : c ∉ a) : splitFirst c l = (a, some b) := by
  rw [hl]
  exact splitFirst_append b ha

/-- Stripping a prefix from itself plus a rest. -/
theorem stripPrefixChars_append (p r : List Char) :
    stripPrefixChars p (p ++ r) = some r := by
  induction p with
  | nil => rfl
  | cons x xs ih => simp [stripPrefixChars, ih]

/-- A list without the separator is a single piece. -/
theorem splitAll_of_not_mem {c : Char} {l : List Char} (h : c ∉ l) :
    splitAll c l = [l] := by
  induction l with
  | nil => rfl
  | cons a as ih =>
    have ha : ¬ a = c := fun he => h (by rw [← he]; exact List.mem_cons_self a as)
    have h2 : c ∉ as := fun hm => h (List.mem_cons_of_mem a hm)
    simp [splitAll, if_neg ha, ih h2]

/-- Peeling the first piece off a separated list. -/
theorem splitAll_append {c : Char} {a : List Char} (b : List Char) (h : c ∉ a) :
    splitAll c (a ++ c :: b) = a :: splitAll c b := by
  induction a with
  | nil => simp [splitAll]
  | cons x xs ih =>
    have hx : ¬ x = c := fun he => h (by rw [← he]; exact List.mem_cons_self x xs)
    have h2 : c ∉ xs := fun hm => h (List.mem_cons_of_mem x hm)
    simp only [List.cons_append, splitAll, if_neg hx, List.append_eq, ih h2]

/-- The query parser recovers the first value of each key from a
well-formed joined parameter list. -/
theorem queryGet_joinParams (key : List Char) (ps : List (List Char × List Char))
    (hwf : ∀ p ∈ ps, wfParam p) :
    queryGetPieces key (splitAll '&' (joinParams ps)) = lookupFirst key ps := by
  induction ps with
  | nil => rfl
  | cons hd tl ih =>
    obtain ⟨k, v⟩ := hd
    obtain ⟨hk0, hka, hke, hks, -, hva, hvs, -⟩ := hwf (k, v) (List.mem_cons_self _ _)
    have hpieceAmp : '&' ∉ k ++ '=' :: v := by
      refine not_mem_append_chars hka ?_
      intro hm
      rcases List.mem_cons.mp hm with he | hv2
      · exact absurd he (by decide)
      · exact hva hv2
    have hpieceSemi : ';' ∉ k ++ '=' :: v := by
      refine not_mem_append_chars hks ?_
      intro hm
      rcases List.mem_cons.mp hm with he | hv2
      · exact absurd he (by decide)
      · exact hvs hv2
    have hpieceNe : k ++ '=' :: v ≠ [] := by
      cases k
      · simp
      · simp
    cases tl with
    | nil =>
      have hj : joinParams [(k, v)] = k ++ '=' :: v := by simp [joinParams]
      rw [hj, splitAll_of_not_mem hpieceAmp, queryGetPieces,
        if_neg hpieceSemi, if_neg hpieceNe]
      dsimp only
      rw [splitFirst_append v hke]
      by_cases hkey : k = key
      · simp [lookupFirst, hkey]
      · simp [lookupFirst, hkey, queryGetPieces]
    | cons t ts =>
      have hjoin : joinParams ((k, v) :: t :: ts) =
          (k ++ '=' :: v) ++ '&' :: joinParams (t :: ts) := by
        simp [joinParams, List.append_assoc]
      rw [hjoin, splitAll_append _ hpieceAmp, queryGetPieces,
        if_neg hpieceSemi, if_neg hpieceNe]
      dsimp only
      rw [splitFirst_append v hke]
      by_cases hkey : k = key
      · simp [lookupFirst, hkey]
      · have ihr := ih (fun p hp => hwf p (List.mem_cons_of_mem _ hp))
        simp only [lookupFirst, if_neg hkey]
        simpa [hkey] using ihr

/-- Evaluation of the URL-parse model on a built Slack message URL. -/
theorem goURLParse_build (X C D Q F : List Char)
    (hX1 : '/' ∉ X) (hX2 : '?' ∉ X) (hX3 : '#' ∉ X)
    (hC1 : C.all isUpperAlnum = true) (hD1 : D.all isDigitChar = true)
    (hQ : '#' ∉ Q) :
    goURLParse (buildSlackURL X C D Q F).data =
      ⟨("https").data, X ++ (".slack.com").data,
        '/' :: (("archives/").data ++ (C ++ ('/' :: ('p' :: D)))), Q⟩ := by
  have hCh : '#' ∉ C := not_mem_of_all_eq_false hC1 (by decide)
  have hCq : '?' ∉ C := not_mem_of_all_eq_false hC1 (by decide)
  have hDq : '?' ∉ D := not_mem_of_all_eq_false hD1 (by decide)
  have hDh : '#' ∉ D := not_mem_of_all_eq_false hD1 (by decide)
  have hQmem : '#' ∉ ('?' :: Q) := by
    intro hm
    rcases List.mem_cons.mp hm with he | hq2
    · exact absurd he (by decide)
    · exact hQ hq2
  have hhash : '#' ∉ ("https://").data ++ (X ++ ((".slack.com/archives/").data ++
      (C ++ (("/p").data ++ (D ++ ('?' :: Q)))))) := by
    refine not_mem_append_chars (by decide) ?_
    refine not_mem_append_chars hX3 ?_
    refine not_mem_append_chars (by decide) ?_
    refine not_mem_append_chars hCh ?_
    refine not_mem_append_chars (by decide) ?_
    exact not_mem_append_chars hDh hQmem
  have hquest : '?' ∉ ("https://").data ++ (X ++ ((".slack.com/archives/").data ++
      (C ++ (("/p").data ++ D)))) := by
    refine not_mem_append_chars (by decide) ?_
    refine not_mem_append_chars hX2 ?_
    refine not_mem_append_chars (by decide) ?_
    refine not_mem_append_chars hCq ?_
    exact not_mem_append_chars (by decide) hDq
  have h1 : splitFirst '#' (buildSlackURL X C D Q F).data =
      (("https://").data ++ (X ++ ((".slack.com/archives/").data ++
        (C ++ (("/p").data ++ (D ++ ('?' :: Q)))))), some F) :=
    splitFirst_decomp (by simp [buildSlackURL, List.append_assoc]) hhash
  have h2 : splitFirst '?' (("https://").data ++ (X ++ ((".slack.com/archives/").data ++
      (C ++ (("/p").data ++ (D ++ ('?' :: Q))))))) =
      (("https://").data ++ (X ++ ((".slack.com/archives/").data ++
        (C ++ (("/p").data ++ D)))), some Q) :=
    splitFirst_decomp (by simp [List.append_assoc]) hquest
  have h3 : splitFirst ':' (("https://").data ++ (X ++ ((".slack.com/archives/").data ++
      (C ++ (("/p").data ++ D))))) =
      (("https").data, some ('/' :: ('/' :: (X ++ ((".slack.com/archives/").data ++
        (C ++ (("/p").data ++ D))))))) :=
    splitFirst_decomp rfl (by decide)
  have h4 : splitFirst '/' (X ++ ((".slack.com/archives/").data ++
      (C ++ (("/p").data ++ D)))) =
      (X ++ (".slack.com").data,
        some (("archives/").data ++ (C ++ ('/' :: ('p' :: D))))) := by
    refine splitFirst_decomp ?_ (not_mem_append_chars hX1 (by decide))
    rw [List.append_assoc]
    rfl
  unfold goURLParse
  rw [h1]
  dsimp only
  rw [h2]
  dsimp only
  rw [h3]
  dsimp only
  rw [if_pos (show ('/' :: ('/' :: (X ++ ((".slack.com/archives/").data ++
    (C ++ (("/p").data ++ D)))))).take 2 = ['/', '/'] from rfl)]
  rw [show ('/' :: ('/' :: (X ++ ((".slack.com/archives/").data ++
    (C ++ (("/p").data ++ D)))))).drop 2 = X ++ ((".slack.com/archives/").data ++
    (C ++ (("/p").data ++ D))) from rfl]
  rw [h4]
  dsimp only
  rw [show (("https").data).map toLowerChar = ("https").data from by decide]
  rfl

/-- A built host has the workspace-domain suffix. -/
theorem hasSuffixChars_append (X p : List Char) : hasSuffixChars (X ++ p) p = true := by
  unfold hasSuffixChars
  have hlen : (X ++ p).length - p.length = X.length := by
    simp [List.length_append]
  rw [hlen, List.drop_left]
  simp [List.length_append]

/-- A built host matches the host part of `slackURLPattern`. -/
theorem hostMatches_append {X : List Char} (hX0 : X ≠ []) (hX1 : '/' ∉ X) :
    hostMatches (X ++ (".slack.com").data) = true := by
  unfold hostMatches
  have hlen : (X ++ (".slack.com").data).length - ((".slack.com").data).length
      = X.length := by
    simp [List.length_append]
  have hlen10 : (X ++ (".slack.com").data).length - 10 = X.length := hlen
  rw [hlen10, List.drop_left, List.take_left]
  have hpos : 0 < X.length := List.length_pos.mpr hX0
  simp [List.length_append, hpos]
  exact fun x hx he => hX1 (he ▸ hx)

/-- A built path matches the path part of `slackURLPattern`, capturing the
channel id and the raw timestamp digits. -/
theorem pathMatches_build {C D : List Char} (hC0 : C ≠ [])
    (hC1 : C.all isUpperAlnum = true) (hD0 : D ≠ []) (hD1 : D.all isDigitChar = true) :
    pathMatches ('/' :: (("archives/").data ++ (C ++ ('/' :: ('p' :: D)))))
      = some (C, D) := by
  unfold pathMatches
  rw [show ('/' :: (("archives/").data ++ (C ++ ('/' :: ('p' :: D)))))
      = ("/archives/").data ++ (C ++ ('/' :: ('p' :: D))) from rfl]
  rw [stripPrefixChars_append]
  dsimp only
  rw [splitFirst_append ('p' :: D) (not_mem_of_all_eq_false hC1 (by decide))]
  dsimp only
  rw [if_pos ⟨hC0, hC1⟩]
  split
  next ds heq =>
    injection heq with h1 h2
    subst h2
    rw [if_pos ⟨hD0, hD1⟩]
  next h =>
    exact absurd rfl (h D)

/-- The full pattern match on the components of a built URL. -/
theorem matchSlackURL_build {X C D Q : List Char} (hX0 : X ≠ []) (hX1 : '/' ∉ X)
    (hC0 : C ≠ []) (hC1 : C.all isUpperAlnum = true)
    (hD0 : D ≠ []) (hD1 : D.all isDigitChar = true) :
    matchSlackURL ⟨("https").data, X ++ (".slack.com").data,
      '/' :: (("archives/").data ++ (C ++ ('/' :: ('p' :: D)))), Q⟩ = some (C, D) := by
  unfold matchSlackURL
  rw [if_pos ⟨rfl, hostMatches_append hX0 hX1⟩]
  exact pathMatches_build hC0 hC1 hD0 hD1

/-- Full evaluation of `Parse` on a built URL: the result depends only on
the timestamp conversion and the `thread_ts` lookup in the query. -/
theorem Parse_build (X C D Q F : List Char)
    (hX0 : X ≠ []) (hX1 : '/' ∉ X) (hX2 : '?' ∉ X) (hX3 : '#' ∉ X)
    (hC0 : C ≠ []) (hC1 : C.all isUpperAlnum = true)
    (hD0 : D ≠ []) (hD1 : D.all isDigitChar = true) (hQ : '#' ∉ Q) :
    Parse (buildSlackURL X C D Q F) =
      (match convertTimestamp D with
        | .error m => .error (NewSlackError errCodeInvalidURL m)
        | .ok ts =>
          if queryGet ("thread_ts").data Q ≠ [] then
            .ok ⟨String.mk C, String.mk ts,
              String.mk (queryGet ("thread_ts").data Q), true⟩
          else .ok ⟨String.mk C, String.mk ts, "", false⟩) := by
  have hne : ¬ (buildSlackURL X C D Q F).data = [] := by
    simp [buildSlackURL]
  unfold Parse
  rw [if_neg hne, goURLParse_build X C D Q F hX1 hX2 hX3 hC1 hD1 hQ]
  dsimp only
  rw [if_pos (hasSuffixChars_append X (".slack.com").data),
    matchSlackURL_build hX0 hX1 hC0 hC1 hD0 hD1]

/-- A character that is neither `=` nor `&` and occurs in no key or value
does not occur in the joined parameter list. -/
theorem not_mem_joinParams {c : Char} (hce : c ≠ '=') (hca : c ≠ '&')
    (ps : List (List Char × List Char)) (h : ∀ p ∈ ps, c ∉ p.1 ∧ c ∉ p.2) :
    c ∉ joinParams ps := by
  induction ps with
  | nil => simp [joinParams]
  | cons hd tl ih =>
    obtain ⟨k, v⟩ := hd
    obtain ⟨hk, hv⟩ := h _ (List.mem_cons_self _ _)
    have ihr := ih fun p hp => h p (List.mem_cons_of_mem _ hp)
    intro hm
    cases tl with
    | nil =>
      simp only [joinParams, List.mem_append, List.mem_cons, List.not_mem_nil,
        or_false, List.append_nil] at hm
      rcases hm with hm | hm | hm
      · exact hk hm
      · exact hce hm
      · exact hv hm
    | cons t ts =>
      have hj : joinParams ((k, v) :: t :: ts) =
          k ++ '=' :: v ++ '&' :: joinParams (t :: ts) := by
        simp [joinParams]
      rw [hj] at hm
      simp only [List.mem_append, List.mem_cons] at hm
      rcases hm with (hm | hm | hm) | hm | hm
      · exact hk hm
      · exact hce hm
      · exact hv hm
      · exact hca hm
      · exact ihr hm

/-! Claim C7: the thread_ts query parameter policy. -/

/-- Claim C7: for every URL that parses successfully, the coordinate's
`isThread` flag is exactly "the URL's `thread_ts` query value is
non-empty" and `threadAnchor` is exactly that value (so a non-empty
`thread_ts=T` yields `isThread = true` and anchor `T`, and a URL without a
non-empty `thread_ts` yields `isThread = false` and an empty anchor);
moreover, on a built URL this holds regardless of the order of the query
parameters, the presence of extra parameters, or a fragment. -/
theorem parse_thread_ts_policy :
    (∀ (s : String) (pu : ParsedURL), Parse s = .ok pu →
      pu.isThread =
        decide (queryGet ("thread_ts").data (goURLParse s.data).rawQuery ≠ []) ∧
      pu.threadTS =
        String.mk (queryGet ("thread_ts").data (goURLParse s.data).rawQuery)) ∧
    (∀ (X C D T : List Char) (ps : List (List Char × List Char)) (F : List Char),
      X ≠ [] → '/' ∉ X → '?' ∉ X → '#' ∉ X →
      C ≠ [] → C.all isUpperAlnum = true →
      D.length = 16 → D.all isDigitChar = true →
      (∀ p ∈ ps, wfParam p) →
      lookupFirst ("thread_ts").data ps = some T → T ≠ [] →
      Parse (buildSlackURL X C D (joinParams ps) F) =
        .ok ⟨String.mk C, String.mk (D.take 10 ++ '.' :: D.drop 10),
          String.mk T, true⟩) := by
  constructor
  · intro s pu h
    unfold Parse at h
    by_cases hemp : s.data = []
    · rw [if_pos hemp] at h
      exact absurd h (by simp)
    · rw [if_neg hemp] at h
      dsimp only at h
      by_cases hsuf : hasSuffixChars (goURLParse s.data).host ((".slack.com").data) = true
      · rw [if_pos hsuf] at h
        cases hm : matchSlackURL (goURLParse s.data) with
        | none =>
          rw [hm] at h
          exact absurd h (by simp)
        | some pr =>
          obtain ⟨ch, rawTs⟩ := pr
          rw [hm] at h
          dsimp only at h
          cases hct : convertTimestamp rawTs with
          | error m =>
            rw [hct] at h
            exact absurd h (by simp)
          | ok ts =>
            rw [hct] at h
            dsimp only at h
            by_cases htts :
                queryGet ("thread_ts").data (goURLParse s.data).rawQuery ≠ []
            · rw [if_pos htts] at h
              injection h with h
              subst h
              exact ⟨(decide_eq_true htts).symm, rfl⟩
            · rw [if_neg htts] at h
              injection h with h
              subst h
              have heq : queryGet ("thread_ts").data (goURLParse s.data).rawQuery = [] :=
                not_not.mp htts
              rw [heq]
              exact ⟨rfl, rfl⟩
      · rw [if_neg hsuf] at h
        exact absurd h (by simp)
  · intro X C D T ps F hX0 hX1 hX2 hX3 hC0 hC1 hD16 hD1 hwf hlk hT
    have hD0 : D ≠ [] := by
      intro h0
      rw [h0] at hD16
      simp at hD16
    have hQh : '#' ∉ joinParams ps :=
      not_mem_joinParams (by decide) (by decide) ps
        (fun p hp => ⟨(hwf p hp).2.2.2.2.1, (hwf p hp).2.2.2.2.2.2.2⟩)
    rw [Parse_build X C D (joinParams ps) F hX0 hX1 hX2 hX3 hC0 hC1 hD0 hD1 hQh]
    have hconv : convertTimestamp D = .ok (D.take 10 ++ '.' :: D.drop 10) := by
      simp [convertTimestamp, hD16, hD1]
    rw [hconv]
    dsimp only
    have hqg : queryGet ("thread_ts").data (joinParams ps) = T := by
      unfold queryGet
      rw [queryGet_joinParams _ ps hwf, hlk]
      rfl
    rw [hqg, if_pos hT]

/-- Witness for C7: a real thread URL with `thread_ts` given after another
parameter and next to an extra parameter and a fragment, plus a built URL
with the parameters in reversed order. -/
theorem parse_thread_ts_policy_witness :
    ((⟨"C01234567", "1355517523.000008", "9.9", true⟩ : ParsedURL).isThread =
      decide (queryGet ("thread_ts").data (goURLParse
        ("https://workspace.slack.com/archives/C01234567/p1355517523000008?cid=C01234567&extra=1&thread_ts=9.9#frag").data).rawQuery
        ≠ []) ∧
    (⟨"C01234567", "1355517523.000008", "9.9", true⟩ : ParsedURL).threadTS =
      String.mk (queryGet ("thread_ts").data (goURLParse
        ("https://workspace.slack.com/archives/C01234567/p1355517523000008?cid=C01234567&extra=1&thread_ts=9.9#frag").data).rawQuery)) ∧
    Parse (buildSlackURL ("workspace").data ("C01234567").data
        ("1355517523000008").data
        (joinParams [(("thread_ts").data, ("9.9").data),
          (("cid").data, ("C01234567").data)]) ("frag").data) =
      .ok ⟨String.mk ("C01234567").data,
        String.mk (("1355517523000008").data.take 10 ++ '.' ::
          ("1355517523000008").data.drop 10),
        String.mk ("9.9").data, true⟩ := by
  constructor
  · exact parse_thread_ts_policy.1 _ ⟨"C01234567", "1355517523.000008", "9.9", true⟩
      (by decide)
  · exact parse_thread_ts_policy.2 ("workspace").data ("C01234567").data
      ("1355517523000008").data ("9.9").data
      [(("thread_ts").data, ("9.9").data), (("cid").data, ("C01234567").data)]
      ("frag").data (by decide) (by decide) (by decide) (by decide) (by decide)
      (by decide) (by decide) (by decide) (by decide) (by decide) (by decide)

/-! Claim C8: the rejected URL families. -/

/-- Claim C8: `Parse` rejects with an `invalid_url` error the empty string,
every string whose parsed host does not end in `.slack.com` (for example
`not-a-url` or a `google.com` URL), every URL whose scheme is not `https`,
and every built URL whose path timestamp is not exactly 16 digits. -/
theorem parse_invalid_url_families :
    Parse "" = .error (NewSlackError errCodeInvalidURL "URL cannot be empty") ∧
    (∀ s : String, s.data ≠ [] →
      hasSuffixChars (goURLParse s.data).host ((".slack.com").data) = false →
      ∃ m, Parse s = .error (NewSlackError errCodeInvalidURL m)) ∧
    (∀ s : String, s.data ≠ [] → (goURLParse s.data).scheme ≠ ("https").data →
      ∃ m, Parse s = .error (NewSlackError errCodeInvalidURL m)) ∧
    (∀ X C D Q F : List Char, X ≠ [] → '/' ∉ X → '?' ∉ X → '#' ∉ X →
      C ≠ [] → C.all isUpperAlnum = true → D ≠ [] → D.all isDigitChar = true →
      '#' ∉ Q → D.length ≠ 16 →
      Parse (buildSlackURL X C D Q F) = .error (NewSlackError errCodeInvalidURL
        ("invalid timestamp format: expected 16 digits, got " ++ toString D.length))) := by
  refine ⟨rfl, ?_, ?_, ?_⟩
  · intro s hne hsuf
    refine ⟨"URL must be a slack.com URL", ?_⟩
    unfold Parse
    rw [if_neg hne]
    dsimp only
    rw [if_neg (by simp [hsuf])]
  · intro s hne hsch
    by_cases hsuf : hasSuffixChars (goURLParse s.data).host ((".slack.com").data) = true
    · refine ⟨"invalid Slack message URL format. Expected: https://workspace.slack.com/archives/\x7bchannel_id\x7d/p\x7btimestamp\x7d", ?_⟩
      unfold Parse
      rw [if_neg hne]
      dsimp only
      rw [if_pos hsuf]
      have hm : matchSlackURL (goURLParse s.data) = none := by
        unfold matchSlackURL
        rw [if_neg (fun hand => hsch hand.1)]
      rw [hm]
    · refine ⟨"URL must be a slack.com URL", ?_⟩
      unfold Parse
      rw [if_neg hne]
      dsimp only
      rw [if_neg hsuf]
  · intro X C D Q F hX0 hX1 hX2 hX3 hC0 hC1 hD0 hD1 hQ hD16
    rw [Parse_build X C D Q F hX0 hX1 hX2 hX3 hC0 hC1 hD0 hD1 hQ]
    have hconv : convertTimestamp D =
        .error ("invalid timestamp format: expected 16 digits, got " ++ toString D.length) := by
      unfold convertTimestamp
      rw [if_pos hD16]
    rw [hconv]

/-- Witness for C8 at the inputs named by the spec: the empty string,
`not-a-url`, a `google.com` URL, the `http` scheme, and a 3-digit path
timestamp. -/
theorem parse_invalid_url_families_witness :
    Parse "" = .error (NewSlackError errCodeInvalidURL "URL cannot be empty") ∧
    (∃ m, Parse "not-a-url" = .error (NewSlackError errCodeInvalidURL m)) ∧
    (∃ m, Parse "https://google.com/archives/C01234567/p1355517523000008" =
      .error (NewSlackError errCodeInvalidURL m)) ∧
    (∃ m, Parse "http://workspace.slack.com/archives/C01234567/p1355517523000008" =
      .error (NewSlackError errCodeInvalidURL m)) ∧
    Parse (buildSlackURL ("workspace").data ("C01234567").data ("123").data [] []) =
      .error (NewSlackError errCodeInvalidURL
        ("invalid timestamp format: expected 16 digits, got " ++
          toString (("123").data).length)) := by
  refine ⟨parse_invalid_url_families.1, ?_, ?_, ?_, ?_⟩
  · exact parse_invalid_url_families.2.1 "not-a-url" (by decide) (by decide)
  · exact parse_invalid_url_families.2.1
      "https://google.com/archives/C01234567/p1355517523000008" (by decide) (by decide)
  · exact parse_invalid_url_families.2.2.1
      "http://workspace.slack.com/archives/C01234567/p1355517523000008"
      (by decide) (by decide)
  · exact parse_invalid_url_families.2.2.2 ("workspace").data ("C01234567").data
      ("123").data [] [] (by decide) (by decide) (by decide) (by decide)
      (by decide) (by decide) (by decide) (by decide) (by decide) (by decide)

/-! Helper lemmas about the read-message handler. -/

/-- Identity resolution does not change the timestamp or reply count. -/
theorem resolveMsg_fields (port : Port) (msg : Message) :
    (resolveUserForMessage port msg).1.timestamp = msg.timestamp ∧
    (resolveUserForMessage port msg).1.replyCount = msg.replyCount := by
  by_cases hu : msg.user = ""
  · simp [resolveUserForMessage, hu]
  · cases hg : port.getUserInfo msg.user with
    | error e => simp [resolveUserForMessage, hu, hg]
    | ok o =>
      cases o with
      | none => simp [resolveUserForMessage, hu, hg]
      | some ui => simp [resolveUserForMessage, hu, hg]

/-- Identity resolution of one message only ever calls the user-info Port
capability. -/
theorem resolveUserForMessage_trace (port : Port) (msg : Message) :
    ∀ c ∈ (resolveUserForMessage port msg).2, ∃ id, c = PortCall.getUserInfo id := by
  intro c hc
  by_cases hu : msg.user = ""
  · simp [resolveUserForMessage, hu] at hc
  · cases hg : port.getUserInfo msg.user with
    | error e =>
      simp [resolveUserForMessage, hu, hg] at hc
      exact ⟨_, hc⟩
    | ok o =>
      cases o with
      | none =>
        simp [resolveUserForMessage, hu, hg] at hc
        exact ⟨_, hc⟩
      | some ui =>
        simp [resolveUserForMessage, hu, hg] at hc
        exact ⟨_, hc⟩

/-- Identity resolution of a message list only ever calls the user-info
Port capability. -/
theorem resolveMessagesList_trace (port : Port) (ms : List Message) :
    ∀ c ∈ (resolveMessagesList port ms).2, ∃ id, c = PortCall.getUserInfo id := by
  induction ms with
  | nil =>
    intro c hc
    simp [resolveMessagesList] at hc
  | cons m ms ih =>
    intro c hc
    simp only [resolveMessagesList] at hc
    rcases List.mem_append.mp hc with h | h
    · exact resolveUserForMessage_trace port m c h
    · exact ih c h

/-- Mention resolution only ever calls the user-info Port capability. -/
theorem resolveMentions_trace (port : Port) (ids : List String) :
    ∀ c ∈ (resolveMentions port ids).2, ∃ id, c = PortCall.getUserInfo id := by
  induction ids with
  | nil =>
    intro c hc
    simp [resolveMentions] at hc
  | cons id rest ih =>
    intro c hc
    unfold resolveMentions at hc
    cases hg : port.getUserInfo id with
    | error e =>
      rw [hg] at hc
      simp at hc
      rcases hc with hc | hc
      · exact ⟨_, hc⟩
      · exact ih c hc
    | ok o =>
      cases o with
      | none =>
        rw [hg] at hc
        simp at hc
        rcases hc with hc | hc
        · exact ⟨_, hc⟩
        · exact ih c hc
      | some ui =>
        rw [hg] at hc
        simp at hc
        rcases hc with hc | hc
        · exact ⟨_, hc⟩
        · exact ih c hc

/-- Building the mention mapping only ever calls the user-info Port
capability. -/
theorem buildUserMapping_trace (port : Port) (texts : List String) :
    ∀ c ∈ (buildUserMapping port texts).2, ∃ id, c = PortCall.getUserInfo id := by
  intro c hc
  unfold buildUserMapping at hc
  by_cases hids : mentionedIDs port texts = []
  · rw [if_pos hids] at hc
    simp at hc
  · rw [if_neg hids] at hc
    dsimp only at hc
    exact resolveMentions_trace port _ c hc

/-- The two spellings of the thread-anchor choice coincide. -/
theorem anchor_if_comm (a b : String) :
    (if a = "" then b else a) = (if a ≠ "" then a else b) := by
  by_cases h : a = "" <;> simp [h]

/-- The URL argument of a successful parse is non-empty. -/
theorem parse_ok_url_ne {url : String} {pu : ParsedURL}
    (hparse : Parse url = .ok pu) : ¬ url = "" := by
  intro h0
  rw [h0] at hparse
  unfold Parse at hparse
  rw [if_pos (show ("" : String).data = [] from rfl)] at hparse
  exact Except.noConfusion hparse

/-- The thread-fetch condition of the handler evaluates to the claim's
disjunction. -/
theorem fetch_cond_eq (port : Port) (pu : ParsedURL) (msg : Message)
    (hfetch : pu.isThread = true ∨ msg.replyCount > 0) :
    (pu.isThread || HasThread (some (resolveUserForMessage port msg).1)) = true := by
  have hht : HasThread (some (resolveUserForMessage port msg).1) =
      decide ((resolveUserForMessage port msg).1.replyCount > 0) := rfl
  rw [hht]
  simp only [(resolveMsg_fields port msg).2]
  rcases hfetch with h | h
  · simp [h]
  · simp [h]

/-- Run equation for the handler when the primary fetch succeeds and the
thread fetch fails: the partial-result path. -/
theorem handleReadMessage_partial_eq (encode : ReadMessageResult → String)
    (port : Port) (url : String) (pu : ParsedURL) (msg : Message) (e : SlackError)
    (hparse : Parse url = .ok pu)
    (hmsg : port.getMessage pu.channelID pu.timestamp = .ok msg)
    (hht : port.hasThread = HasThread)
    (hfetch : pu.isThread = true ∨ msg.replyCount > 0)
    (hthr : port.getThread pu.channelID
      (if pu.threadTS = "" then msg.timestamp else pu.threadTS) = .error e) :
    handleReadMessage encode port url =
      (NewToolResultText (encode ⟨(resolveUserForMessage port msg).1, [],
          pu.channelID, none, none⟩ ++
        "\n\nNote: Failed to fetch thread replies: " ++ e.message),
      PortCall.getMessage pu.channelID pu.timestamp ::
        (resolveUserForMessage port msg).2 ++
        [PortCall.getThread pu.channelID
          (if pu.threadTS = "" then msg.timestamp else pu.threadTS)]) := by
  unfold handleReadMessage
  rw [if_neg (parse_ok_url_ne hparse), hparse]
  dsimp only
  rw [hmsg]
  dsimp only
  rw [hht, if_pos (fetch_cond_eq port pu msg hfetch)]
  rw [(resolveMsg_fields port msg).1, hthr]
  rfl

/-- Run equation for the handler when the parse fails. -/
theorem handleReadMessage_parse_error_eq (encode : ReadMessageResult → String)
    (port : Port) (url : String) (e : SlackError)
    (hurl : ¬ url = "") (hparse : Parse url = .error e) :
    handleReadMessage encode port url = (handleReadError e, []) := by
  unfold handleReadMessage
  rw [if_neg hurl, hparse]

/-- Run equation for the handler when the primary fetch fails. -/
theorem handleReadMessage_fetch_error_eq (encode : ReadMessageResult → String)
    (port : Port) (url : String) (pu : ParsedURL) (e : SlackError)
    (hparse : Parse url = .ok pu)
    (hmsg : port.getMessage pu.channelID pu.timestamp = .error e) :
    handleReadMessage encode port url =
      (handleReadError e, [PortCall.getMessage pu.channelID pu.timestamp]) := by
  unfold handleReadMessage
  rw [if_neg (parse_ok_url_ne hparse), hparse]
  dsimp only
  rw [hmsg]

/-- The error builder of the read handler always marks the result as an
error. -/
theorem handleReadError_isError (e : SlackError) :
    (handleReadError e).isError = true := by
  unfold handleReadError
  split_ifs <;> rfl

/-- Run equation for the handler when the thread is fetched successfully. -/
theorem handleReadMessage_fetch_ok_eq (encode : ReadMessageResult → String)
    (port : Port) (url : String) (pu : ParsedURL) (msg : Message)
    (thread0 : List Message)
    (hparse : Parse url = .ok pu)
    (hmsg : port.getMessage pu.channelID pu.timestamp = .ok msg)
    (hht : port.hasThread = HasThread)
    (hfetch : pu.isThread = true ∨ msg.replyCount > 0)
    (hthr : port.getThread pu.channelID
      (if pu.threadTS = "" then msg.timestamp else pu.threadTS) = .ok thread0) :
    handleReadMessage encode port url =
      (NewToolResultText (encode ⟨(resolveUserForMessage port msg).1,
          (resolveMessagesList port thread0).1, pu.channelID, none,
          (buildUserMapping port ((resolveUserForMessage port msg).1.text ::
            (resolveMessagesList port thread0).1.map Message.text)).1⟩),
      PortCall.getMessage pu.channelID pu.timestamp ::
        (resolveUserForMessage port msg).2 ++
        PortCall.getThread pu.channelID
          (if pu.threadTS = "" then msg.timestamp else pu.threadTS) ::
        (resolveMessagesList port thread0).2 ++
        (buildUserMapping port ((resolveUserForMessage port msg).1.text ::
          (resolveMessagesList port thread0).1.map Message.text)).2) := by
  unfold handleReadMessage
  rw [if_neg (parse_ok_url_ne hparse), hparse]
  dsimp only
  rw [hmsg]
  dsimp only
  rw [hht, if_pos (fetch_cond_eq port pu msg hfetch)]
  rw [(resolveMsg_fields port msg).1, hthr]

/-- Run equation for the handler when no thread is fetched. -/
theorem handleReadMessage_noFetch_eq (encode : ReadMessageResult → String)
    (port : Port) (url : String) (pu : ParsedURL) (msg : Message)
    (hparse : Parse url = .ok pu)
    (hmsg : port.getMessage pu.channelID pu.timestamp = .ok msg)
    (hht : port.hasThread = HasThread)
    (hnofetch : pu.isThread = false ∧ ¬ msg.replyCount > 0) :
    handleReadMessage encode port url =
      (NewToolResultText (encode ⟨(resolveUserForMessage port msg).1, [],
          pu.channelID, none,
          (buildUserMapping port [(resolveUserForMessage port msg).1.text]).1⟩),
      PortCall.getMessage pu.channelID pu.timestamp ::
        (resolveUserForMessage port msg).2 ++
        (buildUserMapping port [(resolveUserForMessage port msg).1.text]).2) := by
  have hcond : (pu.isThread ||
      HasThread (some (resolveUserForMessage port msg).1)) = false := by
    have hht2 : HasThread (some (resolveUserForMessage port msg).1) =
        decide ((resolveUserForMessage port msg).1.replyCount > 0) := rfl
    rw [hht2]
    simp only [(resolveMsg_fields port msg).2]
    simp [hnofetch.1, hnofetch.2]
  unfold handleReadMessage
  rw [if_neg (parse_ok_url_ne hparse), hparse]
  dsimp only
  rw [hmsg]
  dsimp only
  rw [hht, if_neg (by simp [hcond])]

/-! Claim C1: the thread-fetch decision and anchor timestamp. -/

/-- Claim C1: after a successful primary fetch, the thread is fetched from
the Port if and only if the parsed URL referenced a thread or the fetched
message has a positive reply count; and every thread-fetch Port call uses
the URL's channel and, as anchor, the URL's thread anchor when non-empty
and otherwise the fetched message's own timestamp. -/
theorem readMessage_thread_fetch_decision
    (encode : ReadMessageResult → String) (port : Port) (url : String)
    (pu : ParsedURL) (msg : Message)
    (hparse : Parse url = .ok pu)
    (hmsg : port.getMessage pu.channelID pu.timestamp = .ok msg)
    (hht : port.hasThread = HasThread) :
    ((∃ ch ts, PortCall.getThread ch ts ∈ (handleReadMessage encode port url).2) ↔
      (pu.isThread = true ∨ msg.replyCount > 0)) ∧
    (∀ ch ts, PortCall.getThread ch ts ∈ (handleReadMessage encode port url).2 →
      ch = pu.channelID ∧
      ts = (if pu.threadTS ≠ "" then pu.threadTS else msg.timestamp)) := by
  have hanchor : (if pu.threadTS ≠ "" then pu.threadTS else msg.timestamp) =
      (if pu.threadTS = "" then msg.timestamp else pu.threadTS) :=
    (anchor_if_comm _ _).symm
  by_cases hfetch : pu.isThread = true ∨ msg.replyCount > 0
  · cases hthr : port.getThread pu.channelID
        (if pu.threadTS = "" then msg.timestamp else pu.threadTS) with
    | error e =>
      rw [handleReadMessage_partial_eq encode port url pu msg e hparse hmsg hht hfetch hthr]
      constructor
      · constructor
        · intro _
          exact hfetch
        · intro _
          exact ⟨pu.channelID, if pu.threadTS = "" then msg.timestamp else pu.threadTS,
            by simp⟩
      · intro ch ts hmem
        rcases List.mem_append.mp hmem with hm | hm
        · rcases List.mem_cons.mp hm with hm | hm
          · exact absurd hm (by simp)
          · obtain ⟨id, heq⟩ := resolveUserForMessage_trace port msg _ hm
            exact absurd heq (by simp)
        · rw [List.mem_singleton] at hm
          injection hm with h1 h2
          rw [h2]
          exact ⟨h1, hanchor.symm⟩
    | ok thread0 =>
      rw [handleReadMessage_fetch_ok_eq encode port url pu msg thread0
        hparse hmsg hht hfetch hthr]
      constructor
      · constructor
        · intro _
          exact hfetch
        · intro _
          refine ⟨pu.channelID, if pu.threadTS = "" then msg.timestamp else pu.threadTS, ?_⟩
          refine List.mem_append.mpr (Or.inl ?_)
          refine List.mem_append.mpr (Or.inr ?_)
          exact List.mem_cons_self _ _
      · intro ch ts hmem
        rcases List.mem_append.mp hmem with hm | hm
        · rcases List.mem_append.mp hm with hm | hm
          · rcases List.mem_cons.mp hm with hm | hm
            · exact absurd hm (by simp)
            · obtain ⟨id, heq⟩ := resolveUserForMessage_trace port msg _ hm
              exact absurd heq (by simp)
          · rcases List.mem_cons.mp hm with hm | hm
            · injection hm with h1 h2
              rw [h2]
              exact ⟨h1, hanchor.symm⟩
            · obtain ⟨id, heq⟩ := resolveMessagesList_trace port thread0 _ hm
              exact absurd heq (by simp)
        · obtain ⟨id, heq⟩ := buildUserMapping_trace port _ _ hm
          exact absurd heq (by simp)
  · have h1 : pu.isThread = false := by
      cases hb : pu.isThread
      · rfl
      · exact absurd (Or.inl hb) hfetch
    have h2 : ¬ msg.replyCount > 0 := fun hgt => hfetch (Or.inr hgt)
    rw [handleReadMessage_noFetch_eq encode port url pu msg hparse hmsg hht ⟨h1, h2⟩]
    have hnothread : ∀ ch ts, PortCall.getThread ch ts ∉
        (PortCall.getMessage pu.channelID pu.timestamp ::
          (resolveUserForMessage port msg).2 ++
          (buildUserMapping port [(resolveUserForMessage port msg).1.text]).2) := by
      intro ch ts hmem
      rcases List.mem_append.mp hmem with hm | hm
      · rcases List.mem_cons.mp hm with hm | hm
        · exact absurd hm (by simp)
        · obtain ⟨id, heq⟩ := resolveUserForMessage_trace port msg _ hm
          exact absurd heq (by simp)
      · obtain ⟨id, heq⟩ := buildUserMapping_trace port _ _ hm
        exact absurd heq (by simp)
    constructor
    · constructor
      · intro ⟨ch, ts, hmem⟩
        exact absurd hmem (hnothread ch ts)
      · intro h
        exact absurd h hfetch
    · intro ch ts hmem
      exact absurd hmem (hnothread ch ts)

/-- Witness for C1: no thread reference and reply count zero, so the Port
sees no thread-fetch call. -/
theorem readMessage_thread_fetch_decision_witness :
    ((∃ ch ts, PortCall.getThread ch ts ∈
        (handleReadMessage obsReadCurrentUser testPort sampleURL).2) ↔
      ((false : Bool) = true ∨ sampleMessage.replyCount > 0)) ∧
    (∀ ch ts, PortCall.getThread ch ts ∈
        (handleReadMessage obsReadCurrentUser testPort sampleURL).2 →
      ch = "C01234567" ∧
      ts = (if ("" : String) ≠ "" then "" else sampleMessage.timestamp)) :=
  readMessage_thread_fetch_decision obsReadCurrentUser testPort sampleURL
    ⟨"C01234567", "1355517523.000008", "", false⟩ sampleMessage
    (by decide) rfl rfl

/-! Claim C3: partial result on thread-fetch failure. -/

/-- Claim C3: when the primary fetch succeeds but the thread fetch fails,
the call is a success whose text is the serialized primary envelope
followed by a note naming the thread-fetch failure (both occur as
substrings); an invalid URL or a failed primary fetch makes the whole call
fail. -/
theorem readMessage_partial_result (encode : ReadMessageResult → String)
    (port : Port) (url : String) :
    (∀ pu msg e, Parse url = .ok pu →
      port.getMessage pu.channelID pu.timestamp = .ok msg →
      port.hasThread = HasThread →
      (pu.isThread = true ∨ msg.replyCount > 0) →
      port.getThread pu.channelID
        (if pu.threadTS = "" then msg.timestamp else pu.threadTS) = .error e →
      (handleReadMessage encode port url).1.isError = false ∧
      (handleReadMessage encode port url).1.text =
        encode ⟨(resolveUserForMessage port msg).1, [], pu.channelID, none, none⟩ ++
          "\n\nNote: Failed to fetch thread replies: " ++ e.message ∧
      (∃ a b, (handleReadMessage encode port url).1.text.data =
        a ++ ((encode ⟨(resolveUserForMessage port msg).1, [],
          pu.channelID, none, none⟩).data ++ b)) ∧
      (∃ a b, (handleReadMessage encode port url).1.text.data =
        a ++ (("Note: Failed to fetch thread replies: " ++ e.message).data ++ b))) ∧
    (∀ e, Parse url = .error e →
      (handleReadMessage encode port url).1.isError = true) ∧
    (∀ pu e, Parse url = .ok pu →
      port.getMessage pu.channelID pu.timestamp = .error e →
      (handleReadMessage encode port url).1.isError = true) := by
  refine ⟨?_, ?_, ?_⟩
  · intro pu msg e hparse hmsg hht hfetch hthr
    rw [handleReadMessage_partial_eq encode port url pu msg e hparse hmsg hht hfetch hthr]
    refine ⟨rfl, rfl, ?_, ?_⟩
    · refine ⟨[], ("\n\nNote: Failed to fetch thread replies: " ++ e.message).data, ?_⟩
      simp [NewToolResultText, strData_append, List.append_assoc]
    · refine ⟨(encode ⟨(resolveUserForMessage port msg).1, [],
        pu.channelID, none, none⟩).data ++ ("\n\n").data, [], ?_⟩
      have hsplit : ("\n\nNote: Failed to fetch thread replies: ").data =
          ("\n\n").data ++ ("Note: Failed to fetch thread replies: ").data := by decide
      simp [NewToolResultText, strData_append, hsplit, List.append_assoc]
  · intro e hparse
    by_cases hurl : url = ""
    · rw [hurl]
      rfl
    · rw [handleReadMessage_parse_error_eq encode port url e hurl hparse]
      exact handleReadError_isError e
  · intro pu e hparse hmsg
    rw [handleReadMessage_fetch_error_eq encode port url pu e hparse hmsg]
    exact handleReadError_isError e

/-- Witness for C3: the thread-fetch-failure port returns the partial
success for the sample URL, and the fatal families at concrete errors. -/
theorem readMessage_partial_result_witness :
    ((handleReadMessage obsReadCurrentUser testPortThreadFail sampleURL).1.isError
        = false ∧
      (handleReadMessage obsReadCurrentUser testPortThreadFail sampleURL).1.text =
        obsReadCurrentUser ⟨(resolveUserForMessage testPortThreadFail parentMessage).1,
            [], "C01234567", none, none⟩ ++
          "\n\nNote: Failed to fetch thread replies: " ++
          (NewSlackError errCodeRateLimited "rate limited while fetching thread").message ∧
      (∃ a b, (handleReadMessage obsReadCurrentUser testPortThreadFail
          sampleURL).1.text.data =
        a ++ ((obsReadCurrentUser ⟨(resolveUserForMessage testPortThreadFail
          parentMessage).1, [], "C01234567", none, none⟩).data ++ b)) ∧
      (∃ a b, (handleReadMessage obsReadCurrentUser testPortThreadFail
          sampleURL).1.text.data =
        a ++ (("Note: Failed to fetch thread replies: " ++
          (NewSlackError errCodeRateLimited
            "rate limited while fetching thread").message).data ++ b))) ∧
    (handleReadMessage obsReadCurrentUser testPortThreadFail "not-a-url").1.isError
      = true := by
  constructor
  · exact (readMessage_partial_result obsReadCurrentUser testPortThreadFail
      sampleURL).1 ⟨"C01234567", "1355517523.000008", "", false⟩ parentMessage
      (NewSlackError errCodeRateLimited "rate limited while fetching thread")
      (by decide) rfl rfl (Or.inr (by decide)) rfl
  · exact (readMessage_partial_result obsReadCurrentUser testPortThreadFail
      "not-a-url").2.1 (NewSlackError errCodeInvalidURL "URL must be a slack.com URL")
      (by decide)

end SlackMCP
